import Mathlib

/-!
Shallow embedding of the surface-interpolation subsystem of
`src/include/utilities.h` (MACPLAS): the `Triangle` geometry cache, the
segment helpers, `SurfaceInterpolator3D` (vtk loader, interpolation,
cell/point field conversion) and `SurfaceInterpolator2D`.

Modelling conventions, used uniformly below:
* C++ `double` arithmetic is idealised as exact rational arithmetic (`ℚ`).
* Quantities that the source keeps as Euclidean norms and uses only inside
  comparisons of nonnegative values (`m_longest_side`, the pruning distance
  `(p - center).norm()`, the 2D scan distance) are kept squared here;
  squaring is strictly monotone on nonnegative reals, so every comparison,
  and hence every selected index and every returned value, is unchanged.
* `m_normal = cross/(2*area)` and `m_area = ‖cross‖/2` are irrational in
  general, but every use of them in the source cancels the norm
  (projection and barycentric coordinates), so the unnormalised cross
  product is stored instead and the cancelled rational forms are used.
  A zero-area triangle is exactly one with zero cross product; its C++
  barycentric coordinates are NaN, whose `>=`/`<=` comparisons are all
  false, which the model renders as an explicit `crossv ≠ 0` conjunct in
  the interior test of `closest_triangle_point`.
* Reads past the end of a C++ `std::vector` are undefined behaviour; they
  are modelled with `getD` defaults, except in
  `SurfaceInterpolator2D.interpolate` where the accesses after the segment
  scan are the object of study and are modelled as a checked lookup that
  reports an explicit `outOfBounds` error.
* `std::map<std::string, ...>` is modelled as an association list with
  unique keys: `lookupF` is `find`, `setF` is `operator[]` assignment, and
  `fieldMut` is the non-const accessor `field(...)` that default-inserts an
  empty vector when the key is missing.
-/

namespace Macplas

instance {ε α : Type} [DecidableEq ε] [DecidableEq α] : DecidableEq (Except ε α) := fun a b =>
  match a, b with
  | .error e, .error f =>
    if h : e = f then .isTrue (by rw [h]) else .isFalse (by intro hc; cases hc; exact h rfl)
  | .ok u, .ok v =>
    if h : u = v then .isTrue (by rw [h]) else .isFalse (by intro hc; cases hc; exact h rfl)
  | .error _, .ok _ => .isFalse (by intro hc; cases hc)
  | .ok _, .error _ => .isFalse (by intro hc; cases hc)

/-- Rational 3D point; embeds `dealii::Point<3>` with exact arithmetic. -/
structure Vec3 where
  x : ℚ
  y : ℚ
  z : ℚ
deriving DecidableEq

instance : Zero Vec3 := ⟨⟨0, 0, 0⟩⟩

instance : Add Vec3 := ⟨fun a b => ⟨a.x + b.x, a.y + b.y, a.z + b.z⟩⟩

instance : Sub Vec3 := ⟨fun a b => ⟨a.x - b.x, a.y - b.y, a.z - b.z⟩⟩

instance : SMul ℚ Vec3 := ⟨fun c a => ⟨c * a.x, c * a.y, c * a.z⟩⟩

instance : Inhabited Vec3 := ⟨0⟩

/-- Scalar product of two 3D vectors (`operator*` on dealii tensors). -/
def Vec3.dot (a b : Vec3) : ℚ := a.x * b.x + a.y * b.y + a.z * b.z

/-- Cross product (`cross_product_3d`). -/
def Vec3.cross (a b : Vec3) : Vec3 :=
  ⟨a.y * b.z - a.z * b.y, a.z * b.x - a.x * b.z, a.x * b.y - a.y * b.x⟩

/-- Squared Euclidean norm (`norm_square`). -/
def Vec3.normSq (a : Vec3) : ℚ := Vec3.dot a a

/-- `closest_segment_point` (utilities.h): project onto the line through the
segment, clamp the parameter to `[0,1]`.  For a zero-length segment the C++
division yields NaN and the clamped point is an endpoint equal to both
endpoints; the model's division-by-zero convention gives the same point. -/
def closest_segment_point3 (p a b : Vec3) : Vec3 :=
  let d := b - a
  let t := Vec3.dot d (p - a) / Vec3.normSq d
  let t := max 0 (min 1 t)
  a + t • d

/-- Embedding of the `Triangle<3>` cache entry.  `crossv` is the
unnormalised `cross_product_3d(p1 - p0, p2 - p0)`; the source stores
`m_normal = crossv / ‖crossv‖` (when the area is positive) and
`m_area = ‖crossv‖ / 2`, both of which are only ever used in expressions
where the norm cancels.  `longestSideSq` is the square of `m_longest_side`;
its single use is the pruning comparison, preserved by squaring. -/
structure Tri where
  p0 : Vec3
  p1 : Vec3
  p2 : Vec3
  crossv : Vec3
  center : Vec3
  longestSideSq : ℚ
deriving DecidableEq

instance : Inhabited Tri := ⟨⟨0, 0, 0, 0, 0, 0⟩⟩

/-- `Triangle::reinit`: set the vertices and recompute the cached data. -/
def Tri.reinit (q0 q1 q2 : Vec3) : Tri where
  p0 := q0
  p1 := q1
  p2 := q2
  crossv := Vec3.cross (q1 - q0) (q2 - q0)
  center := (1 / 3 : ℚ) • (q0 + q1 + q2)
  longestSideSq :=
    max (max (Vec3.normSq (q1 - q0)) (Vec3.normSq (q2 - q0))) (Vec3.normSq (q1 - q2))

/-- `Triangle::project_to_triangle_plane`: `p - n * (n * (p - p0))` with
`n = crossv / ‖crossv‖`; the two norm factors combine into `normSq`.  For a
degenerate triangle `crossv = 0` and the source's unnormalised normal is
also the zero vector, so both sides return `p` (division by zero is `0`
in `ℚ`). -/
def Tri.projectToPlane (t : Tri) (p : Vec3) : Vec3 :=
  p - (Vec3.dot t.crossv (p - t.p0) / Vec3.normSq t.crossv) • t.crossv

/-- `Triangle::barycentric_coordinates`: three signed-area ratios
`signed_area(..)/m_area`; with `signed_area = (m_normal ⬝ cross)/2` and
`m_area = ‖crossv‖/2` each ratio is `(crossv ⬝ cross ..)/normSq crossv`.
For a degenerate triangle the C++ ratios are NaN; here they are `0`
(division by zero), and `closestPoint` below keeps the NaN comparison
semantics explicit. -/
def Tri.bary (t : Tri) (p : Vec3) : ℚ × ℚ × ℚ :=
  (Vec3.dot t.crossv (Vec3.cross (t.p1 - p) (t.p2 - p)) / Vec3.normSq t.crossv,
   Vec3.dot t.crossv (Vec3.cross (p - t.p0) (t.p2 - t.p0)) / Vec3.normSq t.crossv,
   Vec3.dot t.crossv (Vec3.cross (t.p1 - t.p0) (p - t.p0)) / Vec3.normSq t.crossv)

/-- `Triangle::closest_triangle_point`: project to the plane; if all three
barycentric coordinates of the projection lie in `[0,1]` return the
projection, otherwise return the first strict minimum-distance point among
the three edge queries (edge order 0,1,2 as in the source loop).  The
`crossv ≠ 0` conjunct renders the C++ behaviour for degenerate triangles,
whose NaN coordinates fail every comparison and force the edge scan. -/
def Tri.closestPoint (t : Tri) (p : Vec3) : Vec3 :=
  let pp := t.projectToPlane p
  let b := t.bary pp
  if t.crossv ≠ 0 ∧ 0 ≤ b.1 ∧ b.1 ≤ 1 ∧ 0 ≤ b.2.1 ∧ b.2.1 ≤ 1 ∧ 0 ≤ b.2.2 ∧ b.2.2 ≤ 1 then
    pp
  else
    let e0 := closest_segment_point3 p t.p0 t.p1
    let e1 := closest_segment_point3 p t.p1 t.p2
    let e2 := closest_segment_point3 p t.p2 t.p0
    let d0 := Vec3.normSq (p - e0)
    let d1 := Vec3.normSq (p - e1)
    let d2 := Vec3.normSq (p - e2)
    let pc := if d1 < d0 then e1 else e0
    let dc := if d1 < d0 then d1 else d0
    if d2 < dc then e2 else pc

/-- Named scalar-field map: models `std::map<std::string, std::vector<double>>`. -/
abbrev FieldMap := List (String × List ℚ)

/-- `map::find` (const `field` accessor lookup). -/
def lookupF : FieldMap → String → Option (List ℚ)
  | [], _ => none
  | (k, v) :: rest, name => if k = name then some v else lookupF rest name

/-- `map::operator[] = value`: replace the entry or insert it. -/
def setF : FieldMap → String → List ℚ → FieldMap
  | [], name, v => [(name, v)]
  | (k, w) :: rest, name, v =>
    if k = name then (k, v) :: rest else (k, w) :: setF rest name v

/-- The non-const `field` accessor: `fields[name]` default-inserts an empty
vector when the name is absent and returns the stored vector. -/
def fieldMut (m : FieldMap) (name : String) : List ℚ × FieldMap :=
  match lookupF m name with
  | some v => (v, m)
  | none => ([], m ++ [(name, [])])

/-- `SurfaceInterpolator3D::FieldType`. -/
inductive FieldType where
  | CellField
  | PointField
deriving DecidableEq

/-- Errors thrown by `SurfaceInterpolator3D` member functions:
`std::runtime_error("Field '...' does not exist.")`,
`ExcInterpolationFailed` (names the offending point), and the
`std::runtime_error` for an unsupported conversion pair. -/
inductive SIError where
  | fieldNotFound (name : String)
  | interpolationFailed (p : Vec3)
  | unsupportedConversion
deriving DecidableEq

/-- The store of `SurfaceInterpolator3D`: points, triangle connectivity,
named cell and point fields, and the `Triangle` cache kept in lockstep by
`preprocess`.  The `cell_vector_fields` member holds only the derived
debug output (`center`, `normal`) and is not modelled; likewise the
derived `area`/`longest_side` debug cell fields written by `preprocess`
are irrational in general and are not modelled (no claim touches them). -/
structure SurfaceInterpolator3D where
  points : List Vec3
  triangles : List (Nat × Nat × Nat)
  cell_fields : FieldMap
  point_fields : FieldMap
  triangle_cache : List Tri
deriving DecidableEq

/-- `points[i]` with the C++ out-of-range read (undefined behaviour)
modelled as the origin. -/
def getPoint (pts : List Vec3) (i : Nat) : Vec3 := pts.getD i 0

/-- The cache-building loop of `SurfaceInterpolator3D::preprocess`:
one `Triangle::reinit(points[v[0]], points[v[1]], points[v[2]])` per
triangle. -/
def buildCache (pts : List Vec3) (tris : List (Nat × Nat × Nat)) : List Tri :=
  tris.map (fun v => Tri.reinit (getPoint pts v.1) (getPoint pts v.2.1) (getPoint pts v.2.2))

/-- The running minimum of the scan loops: the accumulator is `none` while
`d2_min < 0` and `some (j_found, p_found, d2_min)` afterwards; a candidate
replaces the accumulator exactly when `d2 < d2_min || d2_min < 0`. -/
def chooseMin {α : Type} : Option (Nat × α × ℚ) → List (Nat × α × ℚ) → Option (Nat × α × ℚ)
  | acc, [] => acc
  | none, c :: cs => chooseMin (some c) cs
  | some a, c :: cs => chooseMin (some (if c.2.2 < a.2.2 then c else a)) cs

/-- The pruning test of `SurfaceInterpolator3D::interpolate`: a triangle is
skipped when `(p - center).norm() > 3 * longest_side`; both sides are
nonnegative, so the comparison is taken on squares. -/
def survives (p : Vec3) (t : Tri) : Bool :=
  !decide (9 * t.longestSideSq < Vec3.normSq (p - t.center))

/-- Candidates `(j, p_trial, d2)` of the exhaustive (fall-back) loop of
`SurfaceInterpolator3D::interpolate`, in index order starting at `j`. -/
def triCands (p : Vec3) : List Tri → Nat → List (Nat × Vec3 × ℚ)
  | [], _ => []
  | t :: ts, j =>
    (j, t.closestPoint p, Vec3.normSq (t.closestPoint p - p)) :: triCands p ts (j + 1)

/-- Candidates of the pruned first loop: triangles failing the pruning test
are skipped (`continue`). -/
def survCands (p : Vec3) : List Tri → Nat → List (Nat × Vec3 × ℚ)
  | [], _ => []
  | t :: ts, j =>
    if survives p t then
      (j, t.closestPoint p, Vec3.normSq (t.closestPoint p - p)) :: survCands p ts (j + 1)
    else
      survCands p ts (j + 1)

/-- The per-point triangle search of `SurfaceInterpolator3D::interpolate`:
the pruned scan, then, when no candidate survived (`d2_min < 0`), the
exhaustive scan over all triangles. -/
def select3D (cache : List Tri) (p : Vec3) : Option (Nat × Vec3 × ℚ) :=
  match chooseMin none (survCands p cache 0) with
  | some r => some r
  | none => chooseMin none (triCands p cache 0)

/-- The value reconstruction of `SurfaceInterpolator3D::interpolate` for a
found triangle `r = (j_found, p_found, d2_min)`: a cell field returns
`source_field[j_found]` directly; a point field blends the three vertex
values with the barycentric coordinates of `p_found`. -/
def valueAt (cache : List Tri) (tris : List (Nat × Nat × Nat)) (ft : FieldType)
    (sf : List ℚ) (r : Nat × Vec3 × ℚ) : ℚ :=
  match ft with
  | .CellField => sf.getD r.1 0
  | .PointField =>
    let t := cache.getD r.1 default
    let b := t.bary r.2.1
    let v := tris.getD r.1 (0, 0, 0)
    b.1 * sf.getD v.1 0 + b.2.1 * sf.getD v.2.1 0 + b.2.2 * sf.getD v.2.2 0

/-- One marked target point of `SurfaceInterpolator3D::interpolate`:
search, `AssertThrow(d2_min >= 0, ExcInterpolationFailed(p))`, reconstruct. -/
def pointVal3D (cache : List Tri) (tris : List (Nat × Nat × Nat)) (ft : FieldType)
    (sf : List ℚ) (p : Vec3) : Except SIError ℚ :=
  match select3D cache p with
  | none => .error (.interpolationFailed p)
  | some r => .ok (valueAt cache tris ft sf r)

/-- The target loop of `SurfaceInterpolator3D::interpolate`: the output is
`reinit`-initialised to zeros, unmarked points are skipped, and the first
failing marked point aborts the call.  A marker read past the end of the
marker vector (undefined behaviour in C++) is modelled as `false`. -/
def interpGo3D (cache : List Tri) (tris : List (Nat × Nat × Nat)) (ft : FieldType)
    (sf : List ℚ) : List Vec3 → List Bool → Except SIError (List ℚ)
  | [], _ => .ok []
  | p :: ps, ms =>
    if ms.headD false then
      match pointVal3D cache tris ft sf p with
      | .error e => .error e
      | .ok v =>
        match interpGo3D cache tris ft sf ps ms.tail with
        | .error e => .error e
        | .ok out => .ok (v :: out)
    else
      match interpGo3D cache tris ft sf ps ms.tail with
      | .error e => .error e
      | .ok out => .ok (0 :: out)

/-- `SurfaceInterpolator3D::interpolate` (3D target points): the const
`field` accessor throws when the named field is absent from the map picked
by `field_type`. -/
def SurfaceInterpolator3D.interpolate (s : SurfaceInterpolator3D) (ft : FieldType)
    (nm : String) (tps : List Vec3) (mks : List Bool) : Except SIError (List ℚ) :=
  match lookupF (if ft = .CellField then s.cell_fields else s.point_fields) nm with
  | none => .error (.fieldNotFound nm)
  | some sf => interpGo3D s.triangle_cache s.triangles ft sf tps mks

/-- One `target_field[id] += x; count[id]++` of
`SurfaceInterpolator3D::cell_to_point` (`List.set` is a no-op out of
range, where the C++ write is undefined behaviour). -/
def bump1 (tc : List ℚ × List Nat) (id : Nat) (x : ℚ) : List ℚ × List Nat :=
  (tc.1.set id (tc.1.getD id 0 + x), tc.2.set id (tc.2.getD id 0 + 1))

/-- The inner loop over the three vertex ids of one triangle. -/
def bump3 (tc : List ℚ × List Nat) (v : Nat × Nat × Nat) (x : ℚ) : List ℚ × List Nat :=
  bump1 (bump1 (bump1 tc v.1 x) v.2.1 x) v.2.2 x

/-- The accumulation loop of `cell_to_point` over `(triangle, value)`
pairs. -/
def c2pLoop : List ((Nat × Nat × Nat) × ℚ) → List ℚ × List Nat → List ℚ × List Nat
  | [], tc => tc
  | (v, x) :: rest, tc => c2pLoop rest (bump3 tc v x)

/-- `SurfaceInterpolator3D::cell_to_point`.  Note that this is a non-const
member, so `field(CellField, source_name)` resolves to the non-const
accessor, which default-inserts an empty vector instead of throwing when
the source is absent.  The target entry is resized to the point count and
zero-filled, accumulated over triangle incidences, and divided by the
incidence count where it is positive. -/
def SurfaceInterpolator3D.cell_to_point (s : SurfaceInterpolator3D)
    (source target : String) : SurfaceInterpolator3D :=
  let sfm := fieldMut s.cell_fields source
  let n := s.points.length
  let start := (List.replicate n (0 : ℚ), List.replicate n (0 : Nat))
  let tc := c2pLoop (s.triangles.zip sfm.1) start
  let final := List.zipWith (fun (x : ℚ) (c : Nat) => if 0 < c then x / (c : ℚ) else x) tc.1 tc.2
  { s with cell_fields := sfm.2, point_fields := setF s.point_fields target final }

/-- `SurfaceInterpolator3D::point_to_cell`: every triangle accumulates its
three vertex values and `count[i]` is unconditionally 3, so the final
division is by 3.  The non-const source accessor default-inserts an empty
vector when the source is absent (out-of-range reads of it are undefined
behaviour in C++, `getD 0` here). -/
def SurfaceInterpolator3D.point_to_cell (s : SurfaceInterpolator3D)
    (source target : String) : SurfaceInterpolator3D :=
  let sfm := fieldMut s.point_fields source
  let final := s.triangles.map
    (fun v => (sfm.1.getD v.1 0 + sfm.1.getD v.2.1 0 + sfm.1.getD v.2.2 0) / 3)
  { s with point_fields := sfm.2, cell_fields := setF s.cell_fields target final }

/-- `SurfaceInterpolator3D::convert`: an empty target name defaults to the
source name; only the two mixed direction pairs are supported. -/
def SurfaceInterpolator3D.convert (s : SurfaceInterpolator3D) (st : FieldType)
    (source : String) (tt : FieldType) (target : String) :
    Except SIError SurfaceInterpolator3D :=
  let tname := if target = "" then source else target
  match st, tt with
  | .CellField, .PointField => .ok (s.cell_to_point source tname)
  | .PointField, .CellField => .ok (s.point_to_cell source tname)
  | _, _ => .error .unsupportedConversion

/-- `SurfaceInterpolator3D::clear`: every member is emptied. -/
def emptyStore : SurfaceInterpolator3D :=
  { points := [], triangles := [], cell_fields := [], point_fields := [], triangle_cache := [] }

/-- `clear()` as a member: the result does not depend on the previous
contents. -/
def SurfaceInterpolator3D.clear (_s : SurfaceInterpolator3D) : SurfaceInterpolator3D :=
  emptyStore

/-- The mid-parse failure of `read_vtk`: a cell with a vertex count other
than 3 throws `std::runtime_error("Triangle expected, numPoints=...")`. -/
inductive VtkErr where
  | triangleExpected (numPoints : String)
deriving DecidableEq

/-- `file >> n` for an unsigned int, with a failed extraction writing 0
(C++11 semantics; the accompanying failbit shortcut for genuinely
malformed numeric input is outside the modelled claims). -/
def natOfTok (s : String) : Nat := s.toNat?.getD 0

/-- Digit-run value of a token, 0 when not a digit run. -/
def ratOfDigits (s : String) : ℚ := (s.toNat?.getD 0 : ℚ)

/-- `file >> x` for a double: optional sign, integer part, optional
fraction (scientific notation does not occur in the claims' inputs). -/
def ratOfTok (s : String) : ℚ :=
  let sgn : ℚ := if s.startsWith "-" then -1 else 1
  let body := if s.startsWith "-" then s.drop 1 else s
  match body.splitOn "." with
  | [a] => sgn * ratOfDigits a
  | [a, b] => sgn * (ratOfDigits a + ratOfDigits b / ((10 : ℚ) ^ b.length))
  | _ => 0

/-- The `POINTS` body: `n` triples of coordinates; an extraction at end of
input leaves the C++11 zero value, here a missing token parses to 0. -/
def readPoints : Nat → List String → List Vec3 × List String
  | 0, toks => ([], toks)
  | m + 1, toks =>
    let p : Vec3 := ⟨ratOfTok (toks.getD 0 ""), ratOfTok (toks.getD 1 ""), ratOfTok (toks.getD 2 "")⟩
    let rest := readPoints m (toks.drop 3)
    (p :: rest.1, rest.2)

/-- A run of `n` scalar values (`SCALARS`/`FIELD` bodies). -/
def readVals : Nat → List String → List ℚ × List String
  | 0, toks => ([], toks)
  | m + 1, toks =>
    let rest := readVals m (toks.drop 1)
    (ratOfTok (toks.getD 0 "") :: rest.1, rest.2)

/-- The `CELLS` body: the connectivity vector is resized to `n`
(value-initialised to zeros) before the loop, so a thrown
`triangleExpected` leaves the remaining entries zeroed; at end of input
the extracted vertex-count token is empty and likewise throws. -/
def readCells : Nat → List String → List (Nat × Nat × Nat) × List String × Option VtkErr
  | 0, toks => ([], toks, none)
  | m + 1, toks =>
    let s := toks.getD 0 ""
    if s ≠ "3" then
      (List.replicate (m + 1) (0, 0, 0), toks.drop 1, some (.triangleExpected s))
    else
      let tri := (natOfTok (toks.getD 1 ""), natOfTok (toks.getD 2 ""), natOfTok (toks.getD 3 ""))
      let rest := readCells m (toks.drop 4)
      (tri :: rest.1, rest.2.1, rest.2.2)

/-- Parser state of `read_vtk`: the store members being filled plus the
`data_type` string. -/
structure VtkState where
  points : List Vec3
  triangles : List (Nat × Nat × Nat)
  cell_fields : FieldMap
  point_fields : FieldMap
  data_type : String
deriving DecidableEq

/-- The `FIELD FieldData k` body: `k` blocks of `name dim n type` followed
by `N` values, `N` chosen from the current `data_type`. -/
def readFieldBlocks : Nat → String → Nat → Nat → FieldMap → FieldMap → List String →
    FieldMap × FieldMap × List String
  | 0, _, _, _, cf, pf, toks => (cf, pf, toks)
  | m + 1, dataType, nPts, nTris, cf, pf, toks =>
    let name := toks.getD 0 ""
    let toks1 := toks.drop 4
    let n := if dataType = "CELL_DATA" then nTris else nPts
    let vals := readVals n toks1
    if dataType = "CELL_DATA" then
      readFieldBlocks m dataType nPts nTris (setF cf name vals.1) pf vals.2
    else
      readFieldBlocks m dataType nPts nTris cf (setF pf name vals.1) vals.2

/-- The token loop `while (file >> s)` of `SurfaceInterpolator3D::read_vtk`.
Each branch consumes at least the keyword token, so the input length is a
sufficient fuel bound; `vtkRun` below always supplies it. -/
def vtkLoop : Nat → List String → VtkState → VtkState × Option VtkErr
  | 0, _, st => (st, none)
  | _ + 1, [], st => (st, none)
  | fuel + 1, s :: rest, st =>
    if s = "POINTS" then
      let n := natOfTok (rest.getD 0 "")
      let pts := readPoints n (rest.drop 2)
      vtkLoop fuel pts.2 { st with points := pts.1 }
    else if s = "CELLS" then
      let n := natOfTok (rest.getD 0 "")
      let cells := readCells n (rest.drop 2)
      match cells.2.2 with
      | some err => ({ st with triangles := cells.1 }, some err)
      | none => vtkLoop fuel cells.2.1 { st with triangles := cells.1 }
    else
      let st1 := if s = "CELL_DATA" ∨ s = "POINT_DATA" then { st with data_type := s } else st
      if s = "SCALARS" then
        let name := rest.getD 0 ""
        let n := if st1.data_type = "CELL_DATA" then st1.triangles.length else st1.points.length
        let vals := readVals n (rest.drop 4)
        if st1.data_type = "CELL_DATA" then
          vtkLoop fuel vals.2 { st1 with cell_fields := setF st1.cell_fields name vals.1 }
        else
          vtkLoop fuel vals.2 { st1 with point_fields := setF st1.point_fields name vals.1 }
      else if s = "FIELD" then
        let k := natOfTok (rest.getD 1 "")
        let fb := readFieldBlocks k st1.data_type st1.points.length st1.triangles.length
          st1.cell_fields st1.point_fields (rest.drop 2)
        vtkLoop fuel fb.2.2 { st1 with cell_fields := fb.1, point_fields := fb.2.1 }
      else
        vtkLoop fuel rest st1

/-- Run the token loop with sufficient fuel. -/
def vtkRun (toks : List String) (st : VtkState) : VtkState × Option VtkErr :=
  vtkLoop toks.length toks st

/-- `SurfaceInterpolator3D::read_vtk`.  The call clears the store first;
an unopenable file (`input = none`) is only logged and the cleared store
is returned; a mid-parse `triangleExpected` propagates as the error
component, leaving the partially parsed members in the store (the
exception escapes before `preprocess`, so the cache stays empty); on
success `preprocess` rebuilds the cache. -/
def SurfaceInterpolator3D.read_vtk (s : SurfaceInterpolator3D)
    (input : Option (List String)) : SurfaceInterpolator3D × Option VtkErr :=
  let s0 := s.clear
  match input with
  | none => (s0, none)
  | some toks =>
    let r := vtkRun toks ⟨s0.points, s0.triangles, s0.cell_fields, s0.point_fields, ""⟩
    let s1 : SurfaceInterpolator3D :=
      { points := r.1.points, triangles := r.1.triangles, cell_fields := r.1.cell_fields,
        point_fields := r.1.point_fields, triangle_cache := [] }
    match r.2 with
    | some err => (s1, some err)
    | none => ({ s1 with triangle_cache := buildCache r.1.points r.1.triangles }, none)

/-- Rational 2D point; embeds `dealii::Point<2>`. -/
structure Vec2 where
  x : ℚ
  y : ℚ
deriving DecidableEq

instance : Zero Vec2 := ⟨⟨0, 0⟩⟩

instance : Add Vec2 := ⟨fun a b => ⟨a.x + b.x, a.y + b.y⟩⟩

instance : Sub Vec2 := ⟨fun a b => ⟨a.x - b.x, a.y - b.y⟩⟩

instance : SMul ℚ Vec2 := ⟨fun c a => ⟨c * a.x, c * a.y⟩⟩

instance : Inhabited Vec2 := ⟨0⟩

/-- Scalar product in 2D. -/
def Vec2.dot (a b : Vec2) : ℚ := a.x * b.x + a.y * b.y

/-- Squared Euclidean norm in 2D. -/
def Vec2.normSq (a : Vec2) : ℚ := Vec2.dot a a

/-- `closest_segment_point` for `dim = 2`. -/
def closest_segment_point2 (p a b : Vec2) : Vec2 :=
  let d := b - a
  let t := Vec2.dot d (p - a) / Vec2.normSq d
  let t := max 0 (min 1 t)
  a + t • d

/-- The unclamped parametric coordinate of the 2-point
`barycentric_coordinates`, whose weights are `(1 - t, t)`. -/
def segParam (p a b : Vec2) : ℚ := Vec2.dot (b - a) (p - a) / Vec2.normSq (b - a)

/-- Errors of `SurfaceInterpolator2D::interpolate`: the const field lookup
throw, and the modelled out-of-range vector accesses (undefined behaviour
in C++) after the segment scan. -/
inductive SI2Error where
  | fieldNotFound (name : String)
  | outOfBounds
deriving DecidableEq

/-- The store of `SurfaceInterpolator2D`: the polyline points and the named
point fields. -/
structure SurfaceInterpolator2D where
  points : List Vec2
  fields : FieldMap
deriving DecidableEq

/-- Candidates `(j, p_trial, d2)` of the segment scan of
`SurfaceInterpolator2D::interpolate`, over consecutive pairs
`(points[j], points[j+1])` with `j + 1 < n_points`.  The source compares
`(p_trial - p).norm()`; the comparison is taken on squares. -/
def segCands (p : Vec2) : List Vec2 → Nat → List (Nat × Vec2 × ℚ)
  | a :: b :: rest, j =>
    (j, closest_segment_point2 p a b,
      Vec2.normSq (closest_segment_point2 p a b - p)) :: segCands p (b :: rest) (j + 1)
  | _, _ => []

/-- One marked target point of `SurfaceInterpolator2D::interpolate`: scan
the segments, then unconditionally read `points[j_found]`,
`points[j_found+1]`, `source_field[j_found]`, `source_field[j_found+1]`
(with `j_found = 0` and `p_found` the origin when the scan found nothing)
and blend with the parametric weights of `p_found`.  The four reads are
checked here; the source performs them without any bound or `d2_min`
check. -/
def pointVal2D (pts : List Vec2) (sf : List ℚ) (p : Vec2) : Except SI2Error ℚ :=
  let r := chooseMin none (segCands p pts 0)
  let jf := match r with | none => 0 | some c => c.1
  let pfnd := match r with | none => (0 : Vec2) | some c => c.2.1
  match pts.get? jf, pts.get? (jf + 1), sf.get? jf, sf.get? (jf + 1) with
  | some a, some b, some f0, some f1 =>
    let t := segParam pfnd a b
    .ok ((1 - t) * f0 + t * f1)
  | _, _, _, _ => .error .outOfBounds

/-- The target loop of `SurfaceInterpolator2D::interpolate`. -/
def interpGo2D (pts : List Vec2) (sf : List ℚ) : List Vec2 → List Bool → Except SI2Error (List ℚ)
  | [], _ => .ok []
  | p :: ps, ms =>
    if ms.headD false then
      match pointVal2D pts sf p with
      | .error e => .error e
      | .ok v =>
        match interpGo2D pts sf ps ms.tail with
        | .error e => .error e
        | .ok out => .ok (v :: out)
    else
      match interpGo2D pts sf ps ms.tail with
      | .error e => .error e
      | .ok out => .ok (0 :: out)

/-- `SurfaceInterpolator2D::interpolate` (2D target points). -/
def SurfaceInterpolator2D.interpolate (s : SurfaceInterpolator2D) (nm : String)
    (tps : List Vec2) (mks : List Bool) : Except SI2Error (List ℚ) :=
  match lookupF s.fields nm with
  | none => .error (.fieldNotFound nm)
  | some sf => interpGo2D s.points sf tps mks

/-- The triangles of `cell_to_point` incident on point `p`, paired with
their cell values (each triangle counted once): the reference reading of
"unweighted arithmetic mean of the values of all triangles incident on
that point" in the spec. -/
def incidentVals (pairs : List ((Nat × Nat × Nat) × ℚ)) (p : Nat) : List ℚ :=
  (pairs.filter (fun vx => decide (p = vx.1.1 ∨ p = vx.1.2.1 ∨ p = vx.1.2.2))).map (·.2)

/-- Number of vertex slots of triangle `v` that reference point `p`. -/
def multV (p : Nat) (v : Nat × Nat × Nat) : Nat :=
  (if v.1 = p then 1 else 0) + (if v.2.1 = p then 1 else 0) + (if v.2.2 = p then 1 else 0)

/-- Slot-weighted sum of the cell values seen by point `p`. -/
def weightedSum (p : Nat) : List ((Nat × Nat × Nat) × ℚ) → ℚ
  | [] => 0
  | (v, x) :: rest => (multV p v : ℚ) * x + weightedSum p rest

/-- Total slot count seen by point `p`. -/
def multSum (p : Nat) : List ((Nat × Nat × Nat) × ℚ) → Nat
  | [] => 0
  | (v, _) :: rest => multV p v + multSum p rest

/-- Concrete data: the unit right triangle of the spec's end-to-end
scenario, with the cell field `f = 5` and the point field `g = (1,2,3)`. -/
def uPoints : List Vec3 := [⟨0, 0, 0⟩, ⟨1, 0, 0⟩, ⟨0, 1, 0⟩]

/-- Connectivity of the single unit triangle. -/
def uTris : List (Nat × Nat × Nat) := [(0, 1, 2)]

/-- Preprocessed single-triangle store. -/
def uStore : SurfaceInterpolator3D :=
  { points := uPoints, triangles := uTris, cell_fields := [("f", [5])],
    point_fields := [("g", [1, 2, 3])], triangle_cache := buildCache uPoints uTris }

/-- Concrete data refuting C1: triangle 0 (vertices 0,1,2) survives
pruning with closest point `(14/5, 0, 0)`; triangle 1 (vertices 3,4,5) is
pruned although its closest point `(5/2, 0, 0)` is strictly nearer to the
origin. -/
def c1Points : List Vec3 :=
  [⟨14/5, 1/2, 0⟩, ⟨14/5, -1/2, 0⟩, ⟨31/10, 0, 0⟩,
   ⟨5/2, 2/5, 0⟩, ⟨5/2, -2/5, 0⟩, ⟨14/5, 0, 0⟩]

/-- Connectivity of the two C1 triangles. -/
def c1Tris : List (Nat × Nat × Nat) := [(0, 1, 2), (3, 4, 5)]

/-- Preprocessed two-triangle store for C1, with distinguishing cell
values 1 and 2. -/
def c1Store : SurfaceInterpolator3D :=
  { points := c1Points, triangles := c1Tris, cell_fields := [("f", [1, 2])],
    point_fields := [], triangle_cache := buildCache c1Points c1Tris }

/-- Connectivity with a degenerate triangle listing vertex 0 twice, for
the C6 counterexample. -/
def c6Tris : List (Nat × Nat × Nat) := [(0, 0, 1), (0, 1, 2)]

/-- Store for the C6 counterexample, cell values (6, 0). -/
def c6Store : SurfaceInterpolator3D :=
  { points := uPoints, triangles := c6Tris, cell_fields := [("f", [6, 0])],
    point_fields := [], triangle_cache := buildCache uPoints c6Tris }

/-- The spec's 2D polyline scenario: points (0,0),(1,0),(2,0). -/
def polyPoints : List Vec2 := [⟨0, 0⟩, ⟨1, 0⟩, ⟨2, 0⟩]

/-- Polyline store with field values (0, 10, 20). -/
def polyStore : SurfaceInterpolator2D :=
  { points := polyPoints, fields := [("f", [0, 10, 20])] }

/-- An empty (zero-triangle) 3D store that still declares the field `f`. -/
def eStore : SurfaceInterpolator3D :=
  { points := [], triangles := [], cell_fields := [("f", [])],
    point_fields := [], triangle_cache := [] }

/-- A 2D store with no points (as after a failed `read_txt`) that still
declares the field `f`. -/
def emptyPoly : SurfaceInterpolator2D := { points := [], fields := [("f", [])] }

/-- A malformed vtk token stream: one point, then a cell declaring 4
vertices. -/
def c4Toks : List String :=
  ["POINTS", "1", "float", "0", "0", "0", "CELLS", "1", "4", "4", "0", "0", "0"]

/-! ## Helper lemmas -/

theorem getD_set_self {α : Type} : ∀ (l : List α) (i : Nat) (a d : α), i < l.length →
    (l.set i a).getD i d = a := by
  intro l
  induction l with
  | nil => intro i a d h; simp at h
  | cons x xs ih =>
    intro i a d h
    cases i with
    | zero => rfl
    | succ i => exact ih i a d (by simpa using h)

theorem getD_set_ne {α : Type} : ∀ (l : List α) (i j : Nat) (a d : α), i ≠ j →
    (l.set i a).getD j d = l.getD j d := by
  intro l
  induction l with
  | nil => intro i j a d _; cases i <;> rfl
  | cons x xs ih =>
    intro i j a d hij
    cases i with
    | zero =>
      cases j with
      | zero => exact absurd rfl hij
      | succ j => rfl
    | succ i =>
      cases j with
      | zero => rfl
      | succ j => exact ih i j a d (by omega)

theorem getD_replicate {α : Type} : ∀ (n q : Nat) (a d : α), q < n →
    (List.replicate n a).getD q d = a := by
  intro n
  induction n with
  | zero => intro q a d h; omega
  | succ n ih =>
    intro q a d h
    cases q with
    | zero => rfl
    | succ q => exact ih q a d (by omega)

theorem getD_zipWith_rat : ∀ (f : ℚ → Nat → ℚ) (t : List ℚ) (c : List Nat) (q : Nat),
    q < t.length → q < c.length →
    (List.zipWith f t c).getD q 0 = f (t.getD q 0) (c.getD q 0) := by
  intro f t
  induction t with
  | nil => intro c q h _; simp at h
  | cons x xs ih =>
    intro c q h1 h2
    cases c with
    | nil => simp at h2
    | cons y ys =>
      cases q with
      | zero => rfl
      | succ q => exact ih ys q (by simpa using h1) (by simpa using h2)

theorem lookupF_setF (m : FieldMap) (k : String) (v : List ℚ) :
    lookupF (setF m k v) k = some v := by
  induction m with
  | nil => simp [setF, lookupF]
  | cons e rest ih =>
    by_cases h : e.1 = k
    · simp [setF, lookupF, h]
    · simp [setF, lookupF, h, ih]

theorem lookupF_append_single (m : FieldMap) (k : String) (v : List ℚ)
    (h : lookupF m k = none) : lookupF (m ++ [(k, v)]) k = some v := by
  induction m with
  | nil => simp [lookupF]
  | cons e rest ih =>
    by_cases he : e.1 = k
    · simp [lookupF, he] at h
    · simp only [lookupF, he, if_neg] at h ⊢
      exact ih h

theorem headD_eq_getD_zero (ms : List Bool) : ms.headD false = ms.getD 0 false := by
  cases ms <;> rfl

theorem tail_getD_bool (ms : List Bool) (k : Nat) :
    ms.tail.getD k false = ms.getD (k + 1) false := by
  cases ms <;> rfl

/-! ## The running-minimum fold -/

theorem chooseMin_acc_isSome {α : Type} : ∀ (cs : List (Nat × α × ℚ)) (a : Nat × α × ℚ),
    ∃ r, chooseMin (some a) cs = some r := by
  intro cs
  induction cs with
  | nil => exact fun a => ⟨a, rfl⟩
  | cons c cs ih =>
    intro a
    simpa only [chooseMin] using ih (if c.2.2 < a.2.2 then c else a)

theorem chooseMin_none_eq_nil {α : Type} (cs : List (Nat × α × ℚ)) :
    chooseMin none cs = none ↔ cs = [] := by
  cases cs with
  | nil => simp [chooseMin]
  | cons c cs =>
    simp only [chooseMin]
    obtain ⟨r, hr⟩ := chooseMin_acc_isSome cs c
    simp [hr]

theorem chooseMin_acc_spec {α : Type} : ∀ (cs : List (Nat × α × ℚ)) (a r : Nat × α × ℚ),
    chooseMin (some a) cs = some r →
    (r = a ∨ ∃ n, cs.get? n = some r ∧ r.2.2 < a.2.2 ∧
      ∀ m, m < n → ∀ c, cs.get? m = some c → r.2.2 < c.2.2) ∧
    r.2.2 ≤ a.2.2 ∧ ∀ m c, cs.get? m = some c → r.2.2 ≤ c.2.2 := by
  intro cs
  induction cs with
  | nil =>
    intro a r h
    simp only [chooseMin, Option.some.injEq] at h
    subst h
    exact ⟨Or.inl rfl, le_refl _, by intro m c hc; simp at hc⟩
  | cons c cs ih =>
    intro a r h
    simp only [chooseMin] at h
    by_cases hlt : c.2.2 < a.2.2
    · rw [if_pos hlt] at h
      obtain ⟨hpos, hle, hall⟩ := ih c r h
      refine ⟨?_, le_of_lt (lt_of_le_of_lt hle hlt), ?_⟩
      · cases hpos with
        | inl hrc =>
          refine Or.inr ⟨0, by simp [hrc], by rw [hrc]; exact hlt, ?_⟩
          intro m hm
          omega
        | inr hex =>
          obtain ⟨n, hn, hlt2, hearl⟩ := hex
          refine Or.inr ⟨n + 1, by simpa using hn, lt_trans hlt2 hlt, ?_⟩
          intro m hm c' hc'
          cases m with
          | zero =>
            simp only [List.get?_cons_zero, Option.some.injEq] at hc'
            rw [← hc']
            exact hlt2
          | succ m => exact hearl m (by omega) c' (by simpa using hc')
      · intro m c' hc'
        cases m with
        | zero =>
          simp only [List.get?_cons_zero, Option.some.injEq] at hc'
          rw [← hc']
          exact hle
        | succ m => exact hall m c' (by simpa using hc')
    · rw [if_neg hlt] at h
      obtain ⟨hpos, hle, hall⟩ := ih a r h
      have hac : a.2.2 ≤ c.2.2 := le_of_not_lt hlt
      refine ⟨?_, hle, ?_⟩
      · cases hpos with
        | inl hra => exact Or.inl hra
        | inr hex =>
          obtain ⟨n, hn, hlt2, hearl⟩ := hex
          refine Or.inr ⟨n + 1, by simpa using hn, hlt2, ?_⟩
          intro m hm c' hc'
          cases m with
          | zero =>
            simp only [List.get?_cons_zero, Option.some.injEq] at hc'
            rw [← hc']
            exact lt_of_lt_of_le hlt2 hac
          | succ m => exact hearl m (by omega) c' (by simpa using hc')
      · intro m c' hc'
        cases m with
        | zero =>
          simp only [List.get?_cons_zero, Option.some.injEq] at hc'
          rw [← hc']
          exact le_trans hle hac
        | succ m => exact hall m c' (by simpa using hc')

theorem chooseMin_none_spec {α : Type} (cs : List (Nat × α × ℚ)) (r : Nat × α × ℚ)
    (h : chooseMin none cs = some r) :
    ∃ n, cs.get? n = some r ∧ (∀ m, m < n → ∀ c, cs.get? m = some c → r.2.2 < c.2.2) ∧
      ∀ m c, cs.get? m = some c → r.2.2 ≤ c.2.2 := by
  cases cs with
  | nil => simp [chooseMin] at h
  | cons c cs =>
    simp only [chooseMin] at h
    obtain ⟨hpos, hle, hall⟩ := chooseMin_acc_spec cs c r h
    cases hpos with
    | inl hrc =>
      refine ⟨0, by simp [hrc], by intro m hm; omega, ?_⟩
      intro m c' hc'
      cases m with
      | zero =>
        simp only [List.get?_cons_zero, Option.some.injEq] at hc'
        rw [← hc']
        exact hle
      | succ m => exact hall m c' (by simpa using hc')
    | inr hex =>
      obtain ⟨n, hn, hlt2, hearl⟩ := hex
      refine ⟨n + 1, by simpa using hn, ?_, ?_⟩
      · intro m hm c' hc'
        cases m with
        | zero =>
          simp only [List.get?_cons_zero, Option.some.injEq] at hc'
          rw [← hc']
          exact hlt2
        | succ m => exact hearl m (by omega) c' (by simpa using hc')
      · intro m c' hc'
        cases m with
        | zero =>
          simp only [List.get?_cons_zero, Option.some.injEq] at hc'
          rw [← hc']
          exact hle
        | succ m => exact hall m c' (by simpa using hc')

/-! ## Candidate lists of the 3D scans -/

theorem triCands_get? (p : Vec3) : ∀ (l : List Tri) (j n : Nat),
    (triCands p l j).get? n =
      (l.get? n).map fun t => (n + j, t.closestPoint p, Vec3.normSq (t.closestPoint p - p)) := by
  intro l
  induction l with
  | nil => intro j n; simp [triCands]
  | cons t ts ih =>
    intro j n
    cases n with
    | zero => simp [triCands]
    | succ n =>
      have harith : n + (j + 1) = n + 1 + j := by omega
      have := ih (j + 1) n
      simp only [triCands, List.get?_cons_succ]
      rw [this, harith]

theorem triCands_eq_nil (p : Vec3) (l : List Tri) (j : Nat) :
    triCands p l j = [] ↔ l = [] := by
  cases l <;> simp [triCands]

theorem survCands_mem (p : Vec3) : ∀ (l : List Tri) (j : Nat) (c : Nat × Vec3 × ℚ),
    c ∈ survCands p l j ↔ ∃ k t, l.get? k = some t ∧ survives p t = true ∧
      c = (k + j, t.closestPoint p, Vec3.normSq (t.closestPoint p - p)) := by
  intro l
  induction l with
  | nil => intro j c; simp [survCands]
  | cons t ts ih =>
    intro j c
    constructor
    · intro hc
      by_cases hs : survives p t
      · rw [survCands, if_pos hs] at hc
        rcases List.mem_cons.mp hc with hc | hc
        · exact ⟨0, t, by simp, hs, by simpa using hc⟩
        · obtain ⟨k, t', h1, h2, h3⟩ := (ih (j + 1) c).mp hc
          refine ⟨k + 1, t', by simpa using h1, h2, ?_⟩
          rw [h3]
          have harith : k + (j + 1) = k + 1 + j := by omega
          rw [harith]
      · rw [survCands, if_neg hs] at hc
        obtain ⟨k, t', h1, h2, h3⟩ := (ih (j + 1) c).mp hc
        refine ⟨k + 1, t', by simpa using h1, h2, ?_⟩
        rw [h3]
        have harith : k + (j + 1) = k + 1 + j := by omega
        rw [harith]
    · rintro ⟨k, t', h1, h2, h3⟩
      cases k with
      | zero =>
        simp only [List.get?_cons_zero, Option.some.injEq] at h1
        subst h1
        rw [survCands, if_pos h2]
        exact List.mem_cons.mpr (Or.inl (by simpa using h3))
      | succ k =>
        simp only [List.get?_cons_succ] at h1
        have hmem : c ∈ survCands p ts (j + 1) :=
          (ih (j + 1) c).mpr ⟨k, t', h1, h2, by
            rw [h3]
            have harith : k + 1 + j = k + (j + 1) := by omega
            rw [harith]⟩
        by_cases hs : survives p t
        · rw [survCands, if_pos hs]
          exact List.mem_cons.mpr (Or.inr hmem)
        · rw [survCands, if_neg hs]
          exact hmem

/-- C1 (amended): the triangle selected by the pruned scan of
`SurfaceInterpolator3D::interpolate` is one that survives pruning and
minimizes the distance to the triangle's closest point over the surviving
triangles only; only when no triangle survives pruning does the fall-back
make the selection equal to the plain exhaustive minimum-distance scan,
which then minimizes over all triangles.  (The selection can differ from
the exhaustive scan when some triangle is pruned;
see `select3D_prune_counterexample`.) -/
theorem select3D_minimizes_over_survivors (cache : List Tri) (p : Vec3) :
    (∀ r, chooseMin none (survCands p cache 0) = some r →
      select3D cache p = some r ∧
      ∃ t, cache.get? r.1 = some t ∧ survives p t = true ∧
        r.2.1 = t.closestPoint p ∧ r.2.2 = Vec3.normSq (t.closestPoint p - p) ∧
        ∀ k tk, cache.get? k = some tk → survives p tk = true →
          r.2.2 ≤ Vec3.normSq (tk.closestPoint p - p)) ∧
    (chooseMin none (survCands p cache 0) = none →
      select3D cache p = chooseMin none (triCands p cache 0) ∧
      ∀ r, chooseMin none (triCands p cache 0) = some r →
        ∃ t, cache.get? r.1 = some t ∧ r.2.1 = t.closestPoint p ∧
          r.2.2 = Vec3.normSq (t.closestPoint p - p) ∧
          ∀ k tk, cache.get? k = some tk →
            r.2.2 ≤ Vec3.normSq (tk.closestPoint p - p)) := by
  constructor
  · intro r hr
    have hsel : select3D cache p = some r := by simp [select3D, hr]
    refine ⟨hsel, ?_⟩
    obtain ⟨n, hn, _hearl, hall⟩ := chooseMin_none_spec _ r hr
    obtain ⟨k, t, hk, hs, hc⟩ := (survCands_mem p cache 0 r).mp (List.get?_mem hn)
    refine ⟨t, ?_, hs, by rw [hc], by rw [hc], ?_⟩
    · rw [hc]
      simpa using hk
    · intro k' tk hk' hs'
      have hmem : (k' + 0, tk.closestPoint p, Vec3.normSq (tk.closestPoint p - p)) ∈
          survCands p cache 0 :=
        (survCands_mem p cache 0 _).mpr ⟨k', tk, hk', hs', rfl⟩
      obtain ⟨m, hm⟩ := List.mem_iff_get?.mp hmem
      exact hall m _ hm
  · intro hnone
    have hsel : select3D cache p = chooseMin none (triCands p cache 0) := by
      simp [select3D, hnone]
    refine ⟨hsel, ?_⟩
    intro r hr
    obtain ⟨n, hn, _hearl, hall⟩ := chooseMin_none_spec _ r hr
    rw [triCands_get? p cache 0 n] at hn
    obtain ⟨t, ht, hc⟩ := Option.map_eq_some'.mp hn
    refine ⟨t, ?_, by rw [← hc], by rw [← hc], ?_⟩
    · rw [← hc]
      simpa using ht
    · intro k tk hk
      have hcand := triCands_get? p cache 0 k
      rw [hk] at hcand
      exact hall k _ (by simpa using hcand)

/-- C1 (counterexample): for the two-triangle surface of `c1Store` and the
origin as target point, the pruned scan selects triangle 0 (closest point
`(14/5,0,0)`, squared distance `196/25`) while the plain exhaustive
minimum-distance scan selects triangle 1 (closest point `(5/2,0,0)`,
squared distance `25/4`); the interpolated cell value is accordingly the
value 1 stored on triangle 0, not the value 2 stored on the true nearest
triangle. -/
theorem select3D_prune_counterexample :
    select3D (buildCache c1Points c1Tris) 0 = some (0, ⟨14/5, 0, 0⟩, 196/25) ∧
    chooseMin none (triCands 0 (buildCache c1Points c1Tris) 0) =
      some (1, ⟨5/2, 0, 0⟩, 25/4) ∧
    select3D (buildCache c1Points c1Tris) 0 ≠
      chooseMin none (triCands 0 (buildCache c1Points c1Tris) 0) ∧
    c1Store.interpolate .CellField "f" [0] [true] = .ok [1] ∧
    valueAt (buildCache c1Points c1Tris) c1Tris .CellField [1, 2]
      (1, ⟨5/2, 0, 0⟩, 25/4) = 2 := by
  have h1 : select3D (buildCache c1Points c1Tris) 0 = some (0, ⟨14/5, 0, 0⟩, 196/25) := by
    with_unfolding_all rfl
  have h2 : chooseMin none (triCands 0 (buildCache c1Points c1Tris) 0) =
      some (1, ⟨5/2, 0, 0⟩, 25/4) := by
    with_unfolding_all rfl
  refine ⟨h1, h2, ?_, by with_unfolding_all rfl, by with_unfolding_all rfl⟩
  intro hne
  rw [h1, h2] at hne
  have h0 : (0 : Nat) = 1 :=
    congrArg (fun o => (Option.getD o ((0 : Nat), (0 : Vec3), (0 : ℚ))).1) hne
  omega

/-- C1 (witness for the amended theorem): for the single unit triangle and
the interior target `(1/4,1/4,0)` the triangle survives pruning, and the
selection is triangle 0 with the target itself as closest point. -/
theorem select3D_minimizes_over_survivors_witness :
    chooseMin none (survCands ⟨1/4, 1/4, 0⟩ (buildCache uPoints uTris) 0) =
      some (0, ⟨1/4, 1/4, 0⟩, 0) ∧
    select3D (buildCache uPoints uTris) ⟨1/4, 1/4, 0⟩ = some (0, ⟨1/4, 1/4, 0⟩, 0) :=
  ⟨by with_unfolding_all rfl,
   ((select3D_minimizes_over_survivors (buildCache uPoints uTris) ⟨1/4, 1/4, 0⟩).1 _
     (by with_unfolding_all rfl)).1⟩

/-- C2: for the unit right triangle `(0,0,0),(1,0,0),(0,1,0)`,
interpolating the cell field of value 5 at the marked interior point
`(1/4,1/4,0)` returns exactly the stored cell value 5 (no blending), and
interpolating the point field with vertex values `(1,2,3)` at the centroid
`(1/3,1/3,0)` returns the barycentric blend 2. -/
theorem interpolate3D_reconstruction_scenarios :
    uStore.interpolate .CellField "f" [⟨1/4, 1/4, 0⟩] [true] = .ok [5] ∧
    uStore.interpolate .PointField "g" [⟨1/3, 1/3, 0⟩] [true] = .ok [2] :=
  ⟨by with_unfolding_all rfl, by with_unfolding_all rfl⟩

/-- C3 (amended): a query (`interpolate`, a const member) fails with the
field-not-found error when the named source field is absent from the map
selected by the field type, leaving the store untouched; a conversion
(`convert`, a non-const member) does NOT fail on an absent source name:
overload resolution picks the non-const `field` accessor, which
default-inserts an empty vector for the missing source, so the conversion
returns normally and the store is modified. -/
theorem field_missing_amended :
    (∀ (s : SurfaceInterpolator3D) (ft : FieldType) (nm : String) (tps : List Vec3)
        (mks : List Bool),
      lookupF (if ft = .CellField then s.cell_fields else s.point_fields) nm = none →
      s.interpolate ft nm tps mks = .error (.fieldNotFound nm)) ∧
    (∀ (s : SurfaceInterpolator3D) (src tgt : String), lookupF s.cell_fields src = none →
      s.convert .CellField src .PointField tgt =
        .ok (s.cell_to_point src (if tgt = "" then src else tgt)) ∧
      lookupF (s.cell_to_point src (if tgt = "" then src else tgt)).cell_fields src =
        some [] ∧
      (s.cell_to_point src (if tgt = "" then src else tgt)).cell_fields ≠ s.cell_fields) ∧
    (∀ (s : SurfaceInterpolator3D) (src tgt : String), lookupF s.point_fields src = none →
      s.convert .PointField src .CellField tgt =
        .ok (s.point_to_cell src (if tgt = "" then src else tgt)) ∧
      lookupF (s.point_to_cell src (if tgt = "" then src else tgt)).point_fields src =
        some [] ∧
      (s.point_to_cell src (if tgt = "" then src else tgt)).point_fields ≠
        s.point_fields) := by
  refine ⟨?_, ?_, ?_⟩
  · intro s ft nm tps mks h
    unfold SurfaceInterpolator3D.interpolate
    rw [h]
  · intro s src tgt h
    have hm : fieldMut s.cell_fields src = ([], s.cell_fields ++ [(src, [])]) := by
      unfold fieldMut
      rw [h]
    have hcf : (s.cell_to_point src (if tgt = "" then src else tgt)).cell_fields =
        s.cell_fields ++ [(src, [])] := by
      simp only [SurfaceInterpolator3D.cell_to_point, hm]
    refine ⟨rfl, ?_, ?_⟩
    · rw [hcf]
      exact lookupF_append_single _ _ _ h
    · rw [hcf]
      intro heq
      have h2 := congrArg (fun m => lookupF m src) heq
      simp only at h2
      rw [lookupF_append_single _ _ _ h, h] at h2
      cases h2
  · intro s src tgt h
    have hm : fieldMut s.point_fields src = ([], s.point_fields ++ [(src, [])]) := by
      unfold fieldMut
      rw [h]
    have hpf : (s.point_to_cell src (if tgt = "" then src else tgt)).point_fields =
        s.point_fields ++ [(src, [])] := by
      simp only [SurfaceInterpolator3D.point_to_cell, hm]
    refine ⟨rfl, ?_, ?_⟩
    · rw [hpf]
      exact lookupF_append_single _ _ _ h
    · rw [hpf]
      intro heq
      have h2 := congrArg (fun m => lookupF m src) heq
      simp only at h2
      rw [lookupF_append_single _ _ _ h, h] at h2
      cases h2

/-- C3 (counterexample): converting the absent cell field `f` of an empty
store does not raise the field-not-found error: it returns normally with
the empty source entry `f` and the empty target entry `g` inserted, so the
store is modified. -/
theorem convert_missing_field_counterexample :
    emptyStore.convert .CellField "f" .PointField "g" =
      .ok ⟨[], [], [("f", [])], [("g", [])], []⟩ ∧
    (⟨[], [], [("f", [])], [("g", [])], []⟩ : SurfaceInterpolator3D) ≠ emptyStore := by
  refine ⟨by with_unfolding_all rfl, ?_⟩
  intro h
  have h2 := congrArg (fun st => st.cell_fields.length) h
  simp [emptyStore] at h2

/-- C3 (witness for the amended theorem): a query for the undeclared field
`q` on the empty store fails with the field-not-found error, while the
conversion of the same undeclared field returns normally with an inserted
empty entry. -/
theorem field_missing_amended_witness :
    emptyStore.interpolate .CellField "q" [] [] = .error (.fieldNotFound "q") ∧
    lookupF (emptyStore.cell_to_point "q"
      (if ("q" : String) = "" then "q" else "q")).cell_fields "q" = some [] :=
  ⟨field_missing_amended.1 emptyStore .CellField "q" [] [] (by with_unfolding_all rfl),
   (field_missing_amended.2.1 emptyStore "q" "q" (by with_unfolding_all rfl)).2.1⟩

/-- C4 (amended): `read_vtk` clears the store at entry, so the result
never depends on the previous contents, and a load on an unreadable input
returns the cleared empty store with no error; a format error thrown
mid-parse, however, leaves the data parsed so far in the store (see
`read_vtk_partial_state_counterexample`), because `clear` runs at the
start of the next load, not on failure. -/
theorem read_vtk_clear_semantics :
    (∀ (s : SurfaceInterpolator3D) (input : Option (List String)),
      s.read_vtk input = emptyStore.read_vtk input) ∧
    (∀ s : SurfaceInterpolator3D, s.read_vtk none = (emptyStore, none)) :=
  ⟨fun _ _ => rfl, fun _ => rfl⟩

/-- C4 (counterexample): a vtk stream with one point and then a cell
declaring 4 vertices throws the triangle-expected format error mid-parse
and leaves the store holding the already-parsed point and the
zero-initialised resized connectivity entry - not a cleared/empty state. -/
theorem read_vtk_partial_state_counterexample :
    (emptyStore.read_vtk (some c4Toks)).2 = some (.triangleExpected "4") ∧
    (emptyStore.read_vtk (some c4Toks)).1.points = [⟨0, 0, 0⟩] ∧
    (emptyStore.read_vtk (some c4Toks)).1.triangles = [(0, 0, 0)] ∧
    (emptyStore.read_vtk (some c4Toks)).1 ≠ emptyStore := by
  have hpts : (emptyStore.read_vtk (some c4Toks)).1.points = [⟨0, 0, 0⟩] := by
    with_unfolding_all rfl
  refine ⟨by with_unfolding_all rfl, hpts, by with_unfolding_all rfl, ?_⟩
  intro h
  rw [h] at hpts
  simp [emptyStore] at hpts

/-! ## Emptiness of the 3D search -/

theorem buildCache_eq_nil (pts : List Vec3) (tris : List (Nat × Nat × Nat)) :
    buildCache pts tris = [] ↔ tris = [] := by
  simp [buildCache]

theorem select3D_eq_none (cache : List Tri) (p : Vec3) :
    select3D cache p = none ↔ cache = [] := by
  constructor
  · intro h
    cases hs : chooseMin none (survCands p cache 0) with
    | some r => simp [select3D, hs] at h
    | none =>
      have h2 : chooseMin none (triCands p cache 0) = none := by
        simpa [select3D, hs] using h
      exact (triCands_eq_nil p cache 0).mp ((chooseMin_none_eq_nil _).mp h2)
  · intro h
    subst h
    rfl

theorem pointVal3D_ok_of_ne (cache : List Tri) (tris : List (Nat × Nat × Nat))
    (ft : FieldType) (sf : List ℚ) (p : Vec3) (h : cache ≠ []) :
    ∃ v, pointVal3D cache tris ft sf p = .ok v := by
  cases hs : select3D cache p with
  | none => exact absurd ((select3D_eq_none cache p).mp hs) h
  | some r => exact ⟨valueAt cache tris ft sf r, by simp [pointVal3D, hs]⟩

theorem pointVal3D_err (cache : List Tri) (tris : List (Nat × Nat × Nat))
    (ft : FieldType) (sf : List ℚ) (p : Vec3) (e : SIError)
    (h : pointVal3D cache tris ft sf p = .error e) :
    e = .interpolationFailed p ∧ cache = [] := by
  cases hs : select3D cache p with
  | some r => simp [pointVal3D, hs] at h
  | none =>
    have he : SIError.interpolationFailed p = e := by simpa [pointVal3D, hs] using h
    exact ⟨he.symm, (select3D_eq_none cache p).mp hs⟩

theorem interpGo3D_ok_of_forall (cache : List Tri) (tris : List (Nat × Nat × Nat))
    (ft : FieldType) (sf : List ℚ) :
    ∀ (tps : List Vec3) (mks : List Bool),
    (∀ p, ∃ v, pointVal3D cache tris ft sf p = .ok v) →
    ∃ out, interpGo3D cache tris ft sf tps mks = .ok out := by
  intro tps
  induction tps with
  | nil => exact fun mks _ => ⟨[], rfl⟩
  | cons p ps ih =>
    intro mks hpv
    obtain ⟨out, hout⟩ := ih mks.tail hpv
    by_cases hm : mks.headD false = true
    · obtain ⟨v, hv⟩ := hpv p
      refine ⟨v :: out, ?_⟩
      simp only [interpGo3D]
      rw [if_pos hm, hv, hout]
    · refine ⟨0 :: out, ?_⟩
      simp only [interpGo3D]
      rw [if_neg hm, hout]

theorem interpGo3D_err_of_marked (cache : List Tri) (tris : List (Nat × Nat × Nat))
    (ft : FieldType) (sf : List ℚ) (hnil : cache = []) :
    ∀ (tps : List Vec3) (mks : List Bool) (i : Nat), i < tps.length →
    mks.getD i false = true →
    ∃ p, interpGo3D cache tris ft sf tps mks = .error (.interpolationFailed p) := by
  intro tps
  induction tps with
  | nil =>
    intro mks i hi _
    simp at hi
  | cons p ps ih =>
    intro mks i hi hm
    by_cases h0 : mks.headD false = true
    · have herr : pointVal3D cache tris ft sf p = .error (.interpolationFailed p) := by
        subst hnil
        rfl
      refine ⟨p, ?_⟩
      simp only [interpGo3D]
      rw [if_pos h0, herr]
    · have hi0 : i ≠ 0 := by
        intro h
        subst h
        rw [← headD_eq_getD_zero] at hm
        exact h0 hm
      have hstep : (i - 1) + 1 = i := by omega
      have hm' : mks.tail.getD (i - 1) false = true := by
        rw [tail_getD_bool, hstep]
        exact hm
      obtain ⟨q, hrec⟩ := ih mks.tail (i - 1) (by simp at hi; omega) hm'
      refine ⟨q, ?_⟩
      simp only [interpGo3D]
      rw [if_neg h0, hrec]

theorem interpGo3D_err_names (cache : List Tri) (tris : List (Nat × Nat × Nat))
    (ft : FieldType) (sf : List ℚ) :
    ∀ (tps : List Vec3) (mks : List Bool) (p : Vec3),
    interpGo3D cache tris ft sf tps mks = .error (.interpolationFailed p) →
    ∃ i, i < tps.length ∧ tps.get? i = some p ∧ mks.getD i false = true := by
  intro tps
  induction tps with
  | nil =>
    intro mks p h
    exact absurd h (by simp [interpGo3D])
  | cons q ps ih =>
    intro mks p h
    by_cases h0 : mks.headD false = true
    · simp only [interpGo3D] at h
      rw [if_pos h0] at h
      cases hpv : pointVal3D cache tris ft sf q with
      | error e =>
        rw [hpv] at h
        have he : e = SIError.interpolationFailed p := by
          simpa using h
        have hq := (pointVal3D_err cache tris ft sf q e hpv).1
        rw [he] at hq
        have hpq : p = q := SIError.interpolationFailed.inj hq
        refine ⟨0, Nat.succ_pos ps.length, ?_, ?_⟩
        · simp [hpq]
        · rw [← headD_eq_getD_zero]
          exact h0
      | ok v =>
        rw [hpv] at h
        cases hrec : interpGo3D cache tris ft sf ps mks.tail with
        | error e =>
          rw [hrec] at h
          have he : e = SIError.interpolationFailed p := by simpa using h
          rw [he] at hrec
          obtain ⟨i, hi, hiq, him⟩ := ih mks.tail p hrec
          exact ⟨i + 1, by simpa using hi, by simpa using hiq,
            by rw [← tail_getD_bool]; exact him⟩
        | ok out =>
          rw [hrec] at h
          simp at h
    · simp only [interpGo3D] at h
      rw [if_neg h0] at h
      cases hrec : interpGo3D cache tris ft sf ps mks.tail with
      | error e =>
        rw [hrec] at h
        have he : e = SIError.interpolationFailed p := by simpa using h
        rw [he] at hrec
        obtain ⟨i, hi, hiq, him⟩ := ih mks.tail p hrec
        exact ⟨i + 1, by simpa using hi, by simpa using hiq,
          by rw [← tail_getD_bool]; exact him⟩
      | ok out =>
        rw [hrec] at h
        simp at h

/-- C5: with the named field present and the triangle cache in lockstep
with the connectivity (the `preprocess` invariant),
`SurfaceInterpolator3D::interpolate` raises the interpolation-failed error
if and only if the surface has zero triangles and some marked target point
exists; with at least one triangle every call returns normally; and the
raised error names an offending point that is one of the marked targets. -/
theorem interpolate3D_failed_iff (s : SurfaceInterpolator3D) (ft : FieldType) (nm : String)
    (tps : List Vec3) (mks : List Bool) (sf : List ℚ)
    (hf : lookupF (if ft = .CellField then s.cell_fields else s.point_fields) nm = some sf)
    (hc : s.triangle_cache = buildCache s.points s.triangles) :
    ((∃ p, s.interpolate ft nm tps mks = .error (.interpolationFailed p)) ↔
      s.triangles = [] ∧ ∃ i, i < tps.length ∧ mks.getD i false = true) ∧
    (s.triangles ≠ [] → ∃ out, s.interpolate ft nm tps mks = .ok out) ∧
    ∀ p, s.interpolate ft nm tps mks = .error (.interpolationFailed p) →
      ∃ i, i < tps.length ∧ tps.get? i = some p ∧ mks.getD i false = true := by
  have hint : s.interpolate ft nm tps mks =
      interpGo3D s.triangle_cache s.triangles ft sf tps mks := by
    unfold SurfaceInterpolator3D.interpolate
    rw [hf]
  have hcache_nil : s.triangle_cache = [] ↔ s.triangles = [] := by
    rw [hc]
    exact buildCache_eq_nil _ _
  refine ⟨⟨?_, ?_⟩, ?_, ?_⟩
  · rintro ⟨p, hp⟩
    rw [hint] at hp
    obtain ⟨i, hi, _, him⟩ := interpGo3D_err_names _ _ _ _ tps mks p hp
    refine ⟨?_, i, hi, him⟩
    by_contra hne
    have hne' : s.triangle_cache ≠ [] := fun hh => hne (hcache_nil.mp hh)
    obtain ⟨out, hout⟩ := interpGo3D_ok_of_forall _ _ _ _ tps mks
      (fun q => pointVal3D_ok_of_ne _ _ _ _ q hne')
    rw [hout] at hp
    cases hp
  · rintro ⟨htris, i, hi, him⟩
    obtain ⟨p, herr⟩ := interpGo3D_err_of_marked _ _ _ _ (hcache_nil.mpr htris) tps mks i hi him
    exact ⟨p, by rw [hint]; exact herr⟩
  · intro hne
    have hne' : s.triangle_cache ≠ [] := fun hh => hne (hcache_nil.mp hh)
    obtain ⟨out, hout⟩ := interpGo3D_ok_of_forall _ _ _ _ tps mks
      (fun q => pointVal3D_ok_of_ne _ _ _ _ q hne')
    exact ⟨out, by rw [hint]; exact hout⟩
  · intro p hp
    rw [hint] at hp
    exact interpGo3D_err_names _ _ _ _ tps mks p hp

/-- C5 (witness): the zero-triangle store `eStore` with a marked target
raises the interpolation-failed error. -/
theorem interpolate3D_failed_iff_witness :
    ∃ p, eStore.interpolate .CellField "f" [⟨1, 2, 3⟩] [true] =
      .error (.interpolationFailed p) :=
  (interpolate3D_failed_iff eStore .CellField "f" [⟨1, 2, 3⟩] [true] []
    (by with_unfolding_all rfl) rfl).1.mpr ⟨rfl, 0, Nat.succ_pos 0, rfl⟩

/-! ## Frame behaviour of the target loops -/

theorem interpGo3D_ok_frame (cache : List Tri) (tris : List (Nat × Nat × Nat))
    (ft : FieldType) (sf : List ℚ) :
    ∀ (tps : List Vec3) (mks : List Bool) (out : List ℚ),
    interpGo3D cache tris ft sf tps mks = .ok out →
    out.length = tps.length ∧
    ∀ i, i < tps.length → mks.getD i false = false → out.getD i 0 = 0 := by
  intro tps
  induction tps with
  | nil =>
    intro mks out h
    have hout : out = [] := by
      simp only [interpGo3D] at h
      exact (Except.ok.inj h).symm
    subst hout
    exact ⟨rfl, fun i hi _ => by simp at hi⟩
  | cons p ps ih =>
    intro mks out h
    simp only [interpGo3D] at h
    by_cases h0 : mks.headD false = true
    · rw [if_pos h0] at h
      cases hpv : pointVal3D cache tris ft sf p with
      | error e =>
        rw [hpv] at h
        simp at h
      | ok v =>
        rw [hpv] at h
        cases hrec : interpGo3D cache tris ft sf ps mks.tail with
        | error e =>
          rw [hrec] at h
          simp at h
        | ok out' =>
          rw [hrec] at h
          have hout : out = v :: out' := (Except.ok.inj h).symm
          subst hout
          obtain ⟨hlen, hz⟩ := ih mks.tail out' hrec
          refine ⟨by simp [hlen], ?_⟩
          intro i hi hm
          cases i with
          | zero =>
            rw [← headD_eq_getD_zero, h0] at hm
            cases hm
          | succ i =>
            have := hz i (by simpa using hi) (by rw [tail_getD_bool]; exact hm)
            simpa using this
    · rw [if_neg h0] at h
      cases hrec : interpGo3D cache tris ft sf ps mks.tail with
      | error e =>
        rw [hrec] at h
        simp at h
      | ok out' =>
        rw [hrec] at h
        have hout : out = 0 :: out' := (Except.ok.inj h).symm
        subst hout
        obtain ⟨hlen, hz⟩ := ih mks.tail out' hrec
        refine ⟨by simp [hlen], ?_⟩
        intro i hi hm
        cases i with
        | zero => rfl
        | succ i =>
          have := hz i (by simpa using hi) (by rw [tail_getD_bool]; exact hm)
          simpa using this

theorem interpGo2D_ok_frame (pts : List Vec2) (sf : List ℚ) :
    ∀ (tps : List Vec2) (mks : List Bool) (out : List ℚ),
    interpGo2D pts sf tps mks = .ok out →
    out.length = tps.length ∧
    (∀ i, i < tps.length → mks.getD i false = false → out.getD i 0 = 0) ∧
    ∀ i p, tps.get? i = some p → mks.getD i false = true →
      ∃ v, pointVal2D pts sf p = .ok v ∧ out.get? i = some v := by
  intro tps
  induction tps with
  | nil =>
    intro mks out h
    have hout : out = [] := by
      simp only [interpGo2D] at h
      exact (Except.ok.inj h).symm
    subst hout
    exact ⟨rfl, fun i hi _ => by simp at hi, fun i p hp _ => by simp at hp⟩
  | cons p ps ih =>
    intro mks out h
    simp only [interpGo2D] at h
    by_cases h0 : mks.headD false = true
    · rw [if_pos h0] at h
      cases hpv : pointVal2D pts sf p with
      | error e =>
        rw [hpv] at h
        simp at h
      | ok v =>
        rw [hpv] at h
        cases hrec : interpGo2D pts sf ps mks.tail with
        | error e =>
          rw [hrec] at h
          simp at h
        | ok out' =>
          rw [hrec] at h
          have hout : out = v :: out' := (Except.ok.inj h).symm
          subst hout
          obtain ⟨hlen, hz, hv⟩ := ih mks.tail out' hrec
          refine ⟨by simp [hlen], ?_, ?_⟩
          · intro i hi hm
            cases i with
            | zero =>
              rw [← headD_eq_getD_zero, h0] at hm
              cases hm
            | succ i =>
              have := hz i (by simpa using hi) (by rw [tail_getD_bool]; exact hm)
              simpa using this
          · intro i q hq hm
            cases i with
            | zero =>
              have hqp : q = p := by
                simpa using hq.symm
              subst hqp
              exact ⟨v, hpv, rfl⟩
            | succ i =>
              exact hv i q (by simpa using hq) (by rw [tail_getD_bool]; exact hm)
    · rw [if_neg h0] at h
      cases hrec : interpGo2D pts sf ps mks.tail with
      | error e =>
        rw [hrec] at h
        simp at h
      | ok out' =>
        rw [hrec] at h
        have hout : out = 0 :: out' := (Except.ok.inj h).symm
        subst hout
        obtain ⟨hlen, hz, hv⟩ := ih mks.tail out' hrec
        refine ⟨by simp [hlen], ?_, ?_⟩
        · intro i hi hm
          cases i with
          | zero => rfl
          | succ i =>
            have := hz i (by simpa using hi) (by rw [tail_getD_bool]; exact hm)
            simpa using this
        · intro i q hq hm
          cases i with
          | zero =>
            rw [← headD_eq_getD_zero] at hm
            exact absurd hm h0
          | succ i =>
            exact hv i q (by simpa using hq) (by rw [tail_getD_bool]; exact hm)

/-- C8: whenever an interpolate call (3D or 2D) returns normally, the
output vector has exactly the length of the target point sequence and
every entry whose marker is false is left at the `reinit`-initialised
value zero. -/
theorem interpolate_frame (s3 : SurfaceInterpolator3D) (ft : FieldType) (nm : String)
    (tps : List Vec3) (mks : List Bool) (out3 : List ℚ)
    (s2 : SurfaceInterpolator2D) (nm2 : String) (tps2 : List Vec2) (mks2 : List Bool)
    (out2 : List ℚ)
    (h3 : s3.interpolate ft nm tps mks = .ok out3)
    (h2 : s2.interpolate nm2 tps2 mks2 = .ok out2) :
    (out3.length = tps.length ∧
      ∀ i, i < tps.length → mks.getD i false = false → out3.getD i 0 = 0) ∧
    (out2.length = tps2.length ∧
      ∀ i, i < tps2.length → mks2.getD i false = false → out2.getD i 0 = 0) := by
  constructor
  · unfold SurfaceInterpolator3D.interpolate at h3
    cases hf : lookupF (if ft = .CellField then s3.cell_fields else s3.point_fields) nm with
    | none =>
      rw [hf] at h3
      simp at h3
    | some sf =>
      rw [hf] at h3
      exact interpGo3D_ok_frame _ _ _ _ tps mks out3 h3
  · unfold SurfaceInterpolator2D.interpolate at h2
    cases hf : lookupF s2.fields nm2 with
    | none =>
      rw [hf] at h2
      simp at h2
    | some sf =>
      rw [hf] at h2
      obtain ⟨hlen, hz, _⟩ := interpGo2D_ok_frame _ _ tps2 mks2 out2 h2
      exact ⟨hlen, hz⟩

/-- C8 (witness): a call with markers `[true, false]` leaves the unmarked
second entry at zero in both the 3D and the 2D engines, with outputs of
the full target length. -/
theorem interpolate_frame_witness :
    ([(5 : ℚ), 0].getD 1 0 = 0) ∧ ([(15 : ℚ), 0].getD 1 0 = 0) :=
  ⟨(interpolate_frame uStore .CellField "f" [⟨1/4, 1/4, 0⟩, ⟨9, 9, 9⟩] [true, false] [5, 0]
      polyStore "f" [⟨3/2, 0⟩, ⟨7, 7⟩] [true, false] [15, 0]
      (by with_unfolding_all rfl) (by with_unfolding_all rfl)).1.2 1 (by simp) rfl,
   (interpolate_frame uStore .CellField "f" [⟨1/4, 1/4, 0⟩, ⟨9, 9, 9⟩] [true, false] [5, 0]
      polyStore "f" [⟨3/2, 0⟩, ⟨7, 7⟩] [true, false] [15, 0]
      (by with_unfolding_all rfl) (by with_unfolding_all rfl)).2.2 1 (by simp) rfl⟩

/-! ## The 2D segment scan -/

theorem segCands_eq_nil_iff (p : Vec2) (l : List Vec2) (j : Nat) :
    segCands p l j = [] ↔ l.length < 2 := by
  cases l with
  | nil => simp [segCands]
  | cons a tl =>
    cases tl with
    | nil => simp [segCands]
    | cons b rest => simp [segCands]

theorem segCands_get? (p : Vec2) : ∀ (l : List Vec2) (j n : Nat) (c : Nat × Vec2 × ℚ),
    (segCands p l j).get? n = some c ↔
      ∃ a b, l.get? n = some a ∧ l.get? (n + 1) = some b ∧
        c = (n + j, closest_segment_point2 p a b,
          Vec2.normSq (closest_segment_point2 p a b - p)) := by
  intro l
  induction l with
  | nil =>
    intro j n c
    simp [segCands]
  | cons a tl ih =>
    cases tl with
    | nil =>
      intro j n c
      constructor
      · intro h
        simp [segCands] at h
      · rintro ⟨a', b', _, h2, _⟩
        cases n with
        | zero => simp at h2
        | succ n => simp at h2
    | cons b rest =>
      intro j n c
      cases n with
      | zero =>
        constructor
        · intro h
          have hc : c = (j, closest_segment_point2 p a b,
              Vec2.normSq (closest_segment_point2 p a b - p)) := by
            have h' : some (j, closest_segment_point2 p a b,
                Vec2.normSq (closest_segment_point2 p a b - p)) = some c := by
              simpa [segCands] using h
            exact (Option.some.inj h').symm
          refine ⟨a, b, rfl, rfl, ?_⟩
          rw [hc, Nat.zero_add]
        · rintro ⟨a', b', h1, h2, h3⟩
          simp only [List.get?_cons_zero, Option.some.injEq] at h1
          simp only [List.get?_cons_succ, List.get?_cons_zero, Option.some.injEq] at h2
          subst h1
          subst h2
          rw [h3, Nat.zero_add]
          simp [segCands]
      | succ n =>
        have harith : n + (j + 1) = n + 1 + j := by omega
        simp only [segCands, List.get?_cons_succ]
        rw [ih (j + 1) n c, harith]
        simp only [List.get?_cons_succ]

theorem pointVal2D_oob (pts : List Vec2) (sf : List ℚ) (p : Vec2) (h2 : pts.length < 2) :
    pointVal2D pts sf p = .error .outOfBounds := by
  cases pts with
  | nil => simp [pointVal2D, segCands, chooseMin]
  | cons a tl =>
    cases tl with
    | nil => simp [pointVal2D, segCands, chooseMin]
    | cons b rest =>
      simp only [List.length_cons] at h2
      omega

theorem pointVal2D_ok (pts : List Vec2) (sf : List ℚ) (p : Vec2)
    (h2 : 2 ≤ pts.length) (hlen : sf.length = pts.length) :
    ∃ v, pointVal2D pts sf p = .ok v := by
  cases hr : chooseMin none (segCands p pts 0) with
  | none =>
    have hnil := (chooseMin_none_eq_nil _).mp hr
    have := (segCands_eq_nil_iff p pts 0).mp hnil
    omega
  | some c =>
    obtain ⟨n, hn, _, _⟩ := chooseMin_none_spec _ c hr
    obtain ⟨a, b, ha, hb, hc⟩ := (segCands_get? p pts 0 n c).mp hn
    have hlt1 : n + 1 < pts.length := by
      by_contra hge
      rw [List.get?_eq_none.mpr (by omega)] at hb
      cases hb
    cases hs0 : sf.get? n with
    | none =>
      rw [List.get?_eq_none] at hs0
      omega
    | some f0 =>
      cases hs1 : sf.get? (n + 1) with
      | none =>
        rw [List.get?_eq_none] at hs1
        omega
      | some f1 =>
        refine ⟨(1 - segParam (closest_segment_point2 p a b) a b) * f0 +
          segParam (closest_segment_point2 p a b) a b * f1, ?_⟩
        simp only [pointVal2D, hr, hc, Nat.add_zero]
        rw [ha, hb, hs0, hs1]

theorem interpGo2D_err_of_marked (pts : List Vec2) (sf : List ℚ)
    (hpv : ∀ p, pointVal2D pts sf p = .error .outOfBounds) :
    ∀ (tps : List Vec2) (mks : List Bool) (i : Nat), i < tps.length →
    mks.getD i false = true →
    interpGo2D pts sf tps mks = .error .outOfBounds := by
  intro tps
  induction tps with
  | nil =>
    intro mks i hi _
    simp at hi
  | cons p ps ih =>
    intro mks i hi hm
    by_cases h0 : mks.headD false = true
    · simp only [interpGo2D]
      rw [if_pos h0, hpv p]
    · have hi0 : i ≠ 0 := by
        intro h
        subst h
        rw [← headD_eq_getD_zero] at hm
        exact h0 hm
      have hstep : (i - 1) + 1 = i := by omega
      have hrec := ih mks.tail (i - 1) (by simp only [List.length_cons] at hi; omega)
        (by rw [tail_getD_bool, hstep]; exact hm)
      simp only [interpGo2D]
      rw [if_neg h0, hrec]

theorem interpGo2D_ok_of_forall (pts : List Vec2) (sf : List ℚ) :
    ∀ (tps : List Vec2) (mks : List Bool),
    (∀ p, ∃ v, pointVal2D pts sf p = .ok v) →
    ∃ out, interpGo2D pts sf tps mks = .ok out := by
  intro tps
  induction tps with
  | nil => exact fun mks _ => ⟨[], rfl⟩
  | cons p ps ih =>
    intro mks hpv
    obtain ⟨out, hout⟩ := ih mks.tail hpv
    by_cases hm : mks.headD false = true
    · obtain ⟨v, hv⟩ := hpv p
      refine ⟨v :: out, ?_⟩
      simp only [interpGo2D]
      rw [if_pos hm, hv, hout]
    · refine ⟨0 :: out, ?_⟩
      simp only [interpGo2D]
      rw [if_neg hm, hout]

/-- C10: `SurfaceInterpolator2D::interpolate` is memory-safe only with at
least two polyline points: with fewer than two points every marked target
makes the post-scan reads `points[j_found]`, `points[j_found+1]`,
`source_field[j_found+1]` go past the end of the vectors (modelled as the
`outOfBounds` error, since the C++ code performs them unchecked and raises
no interpolation error), while with at least two points and a field of
matching length every access is in bounds and the call returns normally. -/
theorem interpolate2D_bounds (s : SurfaceInterpolator2D) (nm : String)
    (tps : List Vec2) (mks : List Bool) (sf : List ℚ)
    (hf : lookupF s.fields nm = some sf) :
    (s.points.length < 2 → ∀ i, i < tps.length → mks.getD i false = true →
      s.interpolate nm tps mks = .error .outOfBounds) ∧
    (2 ≤ s.points.length → sf.length = s.points.length →
      ∃ out, s.interpolate nm tps mks = .ok out) := by
  have hint : s.interpolate nm tps mks = interpGo2D s.points sf tps mks := by
    unfold SurfaceInterpolator2D.interpolate
    rw [hf]
  constructor
  · intro hlt i hi hm
    rw [hint]
    exact interpGo2D_err_of_marked s.points sf
      (fun p => pointVal2D_oob s.points sf p hlt) tps mks i hi hm
  · intro hge hlen
    rw [hint]
    exact interpGo2D_ok_of_forall s.points sf tps mks
      (fun p => pointVal2D_ok s.points sf p hge hlen)

/-- C10 (witness): on the empty polyline (as after a failed `read_txt`)
a marked point triggers the out-of-bounds access; on the three-point
polyline the same call returns normally. -/
theorem interpolate2D_bounds_witness :
    emptyPoly.interpolate "f" [⟨0, 0⟩] [true] = .error .outOfBounds ∧
    ∃ out, polyStore.interpolate "f" [⟨3/2, 0⟩] [true] = .ok out :=
  ⟨(interpolate2D_bounds emptyPoly "f" [⟨0, 0⟩] [true] []
      (by with_unfolding_all rfl)).1 (by decide) 0 (by decide) rfl,
   (interpolate2D_bounds polyStore "f" [⟨3/2, 0⟩] [true] [0, 10, 20]
      (by with_unfolding_all rfl)).2 (by decide) (by decide)⟩

/-- C7: whenever `SurfaceInterpolator2D::interpolate` returns normally,
every marked target point gets the linear parametric blend of the two
endpoint field values of a segment whose closest point achieves the
globally minimal distance over all consecutive point pairs, with ties
broken by the lowest segment index (every strictly earlier segment is
strictly farther); in particular, for the polyline `(0,0),(1,0),(2,0)`
with field values `(0,10,20)`, interpolating at the marked point
`(3/2,0)` returns 15. -/
theorem interpolate2D_nearest_segment (s : SurfaceInterpolator2D) (nm : String)
    (tps : List Vec2) (mks : List Bool) (sf out : List ℚ)
    (hf : lookupF s.fields nm = some sf)
    (hok : s.interpolate nm tps mks = .ok out) :
    (∀ i p, tps.get? i = some p → mks.getD i false = true →
      ∃ j a b, s.points.get? j = some a ∧ s.points.get? (j + 1) = some b ∧
        (∀ k a' b', s.points.get? k = some a' → s.points.get? (k + 1) = some b' →
          Vec2.normSq (closest_segment_point2 p a b - p) ≤
            Vec2.normSq (closest_segment_point2 p a' b' - p)) ∧
        (∀ k, k < j → ∀ a' b', s.points.get? k = some a' →
          s.points.get? (k + 1) = some b' →
          Vec2.normSq (closest_segment_point2 p a b - p) <
            Vec2.normSq (closest_segment_point2 p a' b' - p)) ∧
        out.get? i = some ((1 - segParam (closest_segment_point2 p a b) a b) * sf.getD j 0 +
          segParam (closest_segment_point2 p a b) a b * sf.getD (j + 1) 0)) ∧
    polyStore.interpolate "f" [⟨3/2, 0⟩] [true] = .ok [15] := by
  refine ⟨?_, by with_unfolding_all rfl⟩
  intro i p hp hm
  have hint : interpGo2D s.points sf tps mks = .ok out := by
    unfold SurfaceInterpolator2D.interpolate at hok
    rw [hf] at hok
    exact hok
  obtain ⟨-, -, hval⟩ := interpGo2D_ok_frame s.points sf tps mks out hint
  obtain ⟨v, hv, hout⟩ := hval i p hp hm
  cases hr : chooseMin none (segCands p s.points 0) with
  | none =>
    have hnil := (chooseMin_none_eq_nil _).mp hr
    have hlt := (segCands_eq_nil_iff p s.points 0).mp hnil
    rw [pointVal2D_oob s.points sf p hlt] at hv
    cases hv
  | some c =>
    obtain ⟨n, hn, hearl, hall⟩ := chooseMin_none_spec _ c hr
    obtain ⟨a, b, ha, hb, hc⟩ := (segCands_get? p s.points 0 n c).mp hn
    refine ⟨n, a, b, ha, hb, ?_, ?_, ?_⟩
    · intro k a' b' ha' hb'
      have hcand : (segCands p s.points 0).get? k =
          some (k + 0, closest_segment_point2 p a' b',
            Vec2.normSq (closest_segment_point2 p a' b' - p)) :=
        (segCands_get? p s.points 0 k _).mpr ⟨a', b', ha', hb', rfl⟩
      have := hall k _ hcand
      rw [hc] at this
      simpa using this
    · intro k hk a' b' ha' hb'
      have hcand : (segCands p s.points 0).get? k =
          some (k + 0, closest_segment_point2 p a' b',
            Vec2.normSq (closest_segment_point2 p a' b' - p)) :=
        (segCands_get? p s.points 0 k _).mpr ⟨a', b', ha', hb', rfl⟩
      have := hearl k hk _ hcand
      rw [hc] at this
      simpa using this
    · cases hs0 : sf.get? n with
      | none =>
        simp only [pointVal2D, hr, hc, Nat.add_zero] at hv
        rw [ha, hb, hs0] at hv
        cases hs1 : sf.get? (n + 1) with
        | none => rw [hs1] at hv; cases hv
        | some f1 => rw [hs1] at hv; cases hv
      | some f0 =>
        cases hs1 : sf.get? (n + 1) with
        | none =>
          simp only [pointVal2D, hr, hc, Nat.add_zero] at hv
          rw [ha, hb, hs0, hs1] at hv
          cases hv
        | some f1 =>
          simp only [pointVal2D, hr, hc, Nat.add_zero] at hv
          rw [ha, hb, hs0, hs1] at hv
          have hveq : (1 - segParam (closest_segment_point2 p a b) a b) * f0 +
              segParam (closest_segment_point2 p a b) a b * f1 = v := Except.ok.inj hv
          rw [hout, ← hveq]
          have hf0 : sf.getD n 0 = f0 := by
            rw [List.getD_eq_getD_get?, hs0]
            rfl
          have hf1 : sf.getD (n + 1) 0 = f1 := by
            rw [List.getD_eq_getD_get?, hs1]
            rfl
          rw [hf0, hf1]

/-- C7 (witness): the concrete polyline scenario, extracted through the
theorem: the marked target `(3/2,0)` of `polyStore` receives 15. -/
theorem interpolate2D_nearest_segment_witness :
    ∃ j a b, polyStore.points.get? j = some a ∧ polyStore.points.get? (j + 1) = some b ∧
      (∀ k a' b', polyStore.points.get? k = some a' →
        polyStore.points.get? (k + 1) = some b' →
        Vec2.normSq (closest_segment_point2 ⟨3/2, 0⟩ a b - ⟨3/2, 0⟩) ≤
          Vec2.normSq (closest_segment_point2 ⟨3/2, 0⟩ a' b' - ⟨3/2, 0⟩)) ∧
      (∀ k, k < j → ∀ a' b', polyStore.points.get? k = some a' →
        polyStore.points.get? (k + 1) = some b' →
        Vec2.normSq (closest_segment_point2 ⟨3/2, 0⟩ a b - ⟨3/2, 0⟩) <
          Vec2.normSq (closest_segment_point2 ⟨3/2, 0⟩ a' b' - ⟨3/2, 0⟩)) ∧
      [(15 : ℚ)].get? 0 =
        some ((1 - segParam (closest_segment_point2 ⟨3/2, 0⟩ a b) a b) * [(0 : ℚ), 10, 20].getD j 0 +
          segParam (closest_segment_point2 ⟨3/2, 0⟩ a b) a b * [(0 : ℚ), 10, 20].getD (j + 1) 0) :=
  (interpolate2D_nearest_segment polyStore "f" [⟨3/2, 0⟩] [true] [0, 10, 20] [15]
    (by with_unfolding_all rfl) (by with_unfolding_all rfl)).1 0 ⟨3/2, 0⟩ rfl rfl

/-! ## The incidence accumulation of the field conversions -/

theorem bump1_fst_getD (tc : List ℚ × List Nat) (id : Nat) (x : ℚ) (q : Nat)
    (hq : q < tc.1.length) :
    (bump1 tc id x).1.getD q 0 = tc.1.getD q 0 + (if id = q then x else 0) := by
  by_cases h : id = q
  · subst h
    rw [if_pos rfl]
    exact getD_set_self tc.1 id _ 0 hq
  · rw [if_neg h, add_zero]
    exact getD_set_ne tc.1 id q _ 0 h

theorem bump1_snd_getD (tc : List ℚ × List Nat) (id : Nat) (x : ℚ) (q : Nat)
    (hq : q < tc.2.length) :
    (bump1 tc id x).2.getD q 0 = tc.2.getD q 0 + (if id = q then 1 else 0) := by
  by_cases h : id = q
  · subst h
    rw [if_pos rfl]
    exact getD_set_self tc.2 id _ 0 hq
  · rw [if_neg h, add_zero]
    exact getD_set_ne tc.2 id q _ 0 h

theorem bump1_length (tc : List ℚ × List Nat) (id : Nat) (x : ℚ) :
    (bump1 tc id x).1.length = tc.1.length ∧ (bump1 tc id x).2.length = tc.2.length := by
  simp [bump1]

theorem bump3_length (tc : List ℚ × List Nat) (v : Nat × Nat × Nat) (x : ℚ) :
    (bump3 tc v x).1.length = tc.1.length ∧ (bump3 tc v x).2.length = tc.2.length := by
  simp [bump3, bump1]

theorem bump3_fst_getD (tc : List ℚ × List Nat) (v : Nat × Nat × Nat) (x : ℚ) (q : Nat)
    (hq : q < tc.1.length) :
    (bump3 tc v x).1.getD q 0 = tc.1.getD q 0 + (multV q v : ℚ) * x := by
  have hl1 := (bump1_length tc v.1 x).1
  have hl2 := (bump1_length (bump1 tc v.1 x) v.2.1 x).1
  show (bump1 (bump1 (bump1 tc v.1 x) v.2.1 x) v.2.2 x).1.getD q 0 = _
  rw [bump1_fst_getD _ v.2.2 x q (by rw [hl2, hl1]; exact hq),
    bump1_fst_getD _ v.2.1 x q (by rw [hl1]; exact hq),
    bump1_fst_getD tc v.1 x q hq]
  simp only [multV]
  by_cases h1 : v.1 = q <;> by_cases h2 : v.2.1 = q <;> by_cases h3 : v.2.2 = q <;>
    simp [h1, h2, h3] <;> ring

theorem bump3_snd_getD (tc : List ℚ × List Nat) (v : Nat × Nat × Nat) (x : ℚ) (q : Nat)
    (hq : q < tc.2.length) :
    (bump3 tc v x).2.getD q 0 = tc.2.getD q 0 + multV q v := by
  have hl1 := (bump1_length tc v.1 x).2
  have hl2 := (bump1_length (bump1 tc v.1 x) v.2.1 x).2
  show (bump1 (bump1 (bump1 tc v.1 x) v.2.1 x) v.2.2 x).2.getD q 0 = _
  rw [bump1_snd_getD _ v.2.2 x q (by rw [hl2, hl1]; exact hq),
    bump1_snd_getD _ v.2.1 x q (by rw [hl1]; exact hq),
    bump1_snd_getD tc v.1 x q hq]
  simp only [multV]
  by_cases h1 : v.1 = q <;> by_cases h2 : v.2.1 = q <;> by_cases h3 : v.2.2 = q <;>
    simp [h1, h2, h3]

theorem c2pLoop_length : ∀ (pairs : List ((Nat × Nat × Nat) × ℚ)) (tc : List ℚ × List Nat),
    (c2pLoop pairs tc).1.length = tc.1.length ∧ (c2pLoop pairs tc).2.length = tc.2.length := by
  intro pairs
  induction pairs with
  | nil => exact fun tc => ⟨rfl, rfl⟩
  | cons vx rest ih =>
    obtain ⟨v, x⟩ := vx
    intro tc
    obtain ⟨h1, h2⟩ := ih (bump3 tc v x)
    obtain ⟨hb1, hb2⟩ := bump3_length tc v x
    exact ⟨by simp only [c2pLoop]; rw [h1, hb1], by simp only [c2pLoop]; rw [h2, hb2]⟩

theorem c2pLoop_getD : ∀ (pairs : List ((Nat × Nat × Nat) × ℚ)) (tc : List ℚ × List Nat)
    (q : Nat), q < tc.1.length → q < tc.2.length →
    (c2pLoop pairs tc).1.getD q 0 = tc.1.getD q 0 + weightedSum q pairs ∧
    (c2pLoop pairs tc).2.getD q 0 = tc.2.getD q 0 + multSum q pairs := by
  intro pairs
  induction pairs with
  | nil =>
    intro tc q _ _
    exact ⟨by simp [c2pLoop, weightedSum], by simp [c2pLoop, multSum]⟩
  | cons vx rest ih =>
    obtain ⟨v, x⟩ := vx
    intro tc q hq1 hq2
    obtain ⟨hb1, hb2⟩ := bump3_length tc v x
    obtain ⟨ih1, ih2⟩ := ih (bump3 tc v x) q (by rw [hb1]; exact hq1) (by rw [hb2]; exact hq2)
    constructor
    · simp only [c2pLoop]
      rw [ih1, bump3_fst_getD tc v x q hq1, weightedSum]
      ring
    · simp only [c2pLoop]
      rw [ih2, bump3_snd_getD tc v x q hq2, multSum]
      omega

theorem multV_distinct (q : Nat) (v : Nat × Nat × Nat)
    (hd : v.1 ≠ v.2.1 ∧ v.1 ≠ v.2.2 ∧ v.2.1 ≠ v.2.2) :
    multV q v = if q = v.1 ∨ q = v.2.1 ∨ q = v.2.2 then 1 else 0 := by
  obtain ⟨h12, h13, h23⟩ := hd
  simp only [multV]
  by_cases h1 : v.1 = q
  · have h2 : ¬v.2.1 = q := fun h => h12 (h1.trans h.symm)
    have h3 : ¬v.2.2 = q := fun h => h13 (h1.trans h.symm)
    rw [if_pos (Or.inl h1.symm), if_pos h1, if_neg h2, if_neg h3]
  · by_cases h2 : v.2.1 = q
    · have h3 : ¬v.2.2 = q := fun h => h23 (h2.trans h.symm)
      rw [if_pos (Or.inr (Or.inl h2.symm)), if_neg h1, if_pos h2, if_neg h3]
    · by_cases h3 : v.2.2 = q
      · rw [if_pos (Or.inr (Or.inr h3.symm)), if_neg h1, if_neg h2, if_pos h3]
      · have hn : ¬(q = v.1 ∨ q = v.2.1 ∨ q = v.2.2) := by
          rintro (h | h | h)
          · exact h1 h.symm
          · exact h2 h.symm
          · exact h3 h.symm
        rw [if_neg hn, if_neg h1, if_neg h2, if_neg h3]

theorem weightedSum_incident (q : Nat) : ∀ (pairs : List ((Nat × Nat × Nat) × ℚ)),
    (∀ vx ∈ pairs, vx.1.1 ≠ vx.1.2.1 ∧ vx.1.1 ≠ vx.1.2.2 ∧ vx.1.2.1 ≠ vx.1.2.2) →
    weightedSum q pairs = (incidentVals pairs q).sum ∧
    multSum q pairs = (incidentVals pairs q).length := by
  intro pairs
  induction pairs with
  | nil => intro _; exact ⟨rfl, rfl⟩
  | cons vx rest ih =>
    obtain ⟨v, x⟩ := vx
    intro hd
    have hdv := hd (v, x) (List.mem_cons_self _ _)
    obtain ⟨ihw, ihm⟩ := ih (fun vy hy => hd vy (List.mem_cons_of_mem _ hy))
    have hmv := multV_distinct q v hdv
    by_cases hinc : q = v.1 ∨ q = v.2.1 ∨ q = v.2.2
    · rw [if_pos hinc] at hmv
      have hfil : incidentVals ((v, x) :: rest) q = x :: incidentVals rest q := by
        simp only [incidentVals, List.filter_cons]
        rw [if_pos (decide_eq_true hinc)]
        rfl
      constructor
      · simp only [weightedSum]
        rw [ihw, hmv, hfil, List.sum_cons]
        push_cast
        ring
      · simp only [multSum]
        rw [ihm, hmv, hfil, List.length_cons]
        omega
    · rw [if_neg hinc] at hmv
      have hfil : incidentVals ((v, x) :: rest) q = incidentVals rest q := by
        simp only [incidentVals, List.filter_cons]
        rw [if_neg (by simpa using hinc)]
      constructor
      · simp only [weightedSum]
        rw [ihw, hmv, hfil]
        push_cast
        ring
      · simp only [multSum]
        rw [ihm, hmv, hfil]
        omega

/-- C6 (amended): `cell_to_point` assigns each point the unweighted
arithmetic mean of the source values over the vertex-slot incidences;
when each triangle's three vertex indices are pairwise distinct (the
non-degenerate case, in which slot incidence and triangle incidence
coincide) this is exactly the unweighted mean of the values of all
triangles incident on the point, and a point with no incident triangle
keeps the value zero; `point_to_cell` assigns each triangle the unweighted
mean of its three vertex values, unconditionally.  (With a repeated vertex
the code counts that triangle once per repeated slot; see
`cell_to_point_multiplicity_counterexample`.) -/
theorem cell_to_point_mean (s : SurfaceInterpolator3D) (src tgt : String) (sf : List ℚ)
    (hsf : lookupF s.cell_fields src = some sf)
    (hdist : ∀ v ∈ s.triangles, v.1 ≠ v.2.1 ∧ v.1 ≠ v.2.2 ∧ v.2.1 ≠ v.2.2) :
    (∃ out, lookupF (s.cell_to_point src tgt).point_fields tgt = some out ∧
      out.length = s.points.length ∧
      ∀ q, q < s.points.length →
        out.getD q 0 = if (incidentVals (s.triangles.zip sf) q).length = 0 then 0
          else (incidentVals (s.triangles.zip sf) q).sum /
            ((incidentVals (s.triangles.zip sf) q).length : ℚ)) ∧
    (∀ pf, lookupF s.point_fields src = some pf →
      lookupF (s.point_to_cell src tgt).cell_fields tgt =
        some (s.triangles.map
          (fun v => (pf.getD v.1 0 + pf.getD v.2.1 0 + pf.getD v.2.2 0) / 3))) := by
  constructor
  · have hm : fieldMut s.cell_fields src = (sf, s.cell_fields) := by
      unfold fieldMut
      rw [hsf]
    have hpairsd : ∀ vx ∈ s.triangles.zip sf,
        vx.1.1 ≠ vx.1.2.1 ∧ vx.1.1 ≠ vx.1.2.2 ∧ vx.1.2.1 ≠ vx.1.2.2 :=
      fun vx hx => hdist vx.1 (List.of_mem_zip hx).1
    have hl := c2pLoop_length (s.triangles.zip sf)
      (List.replicate s.points.length 0, List.replicate s.points.length 0)
    have hl1 : (c2pLoop (s.triangles.zip sf)
        (List.replicate s.points.length 0, List.replicate s.points.length 0)).1.length =
        s.points.length := by
      rw [hl.1, List.length_replicate]
    have hl2 : (c2pLoop (s.triangles.zip sf)
        (List.replicate s.points.length 0, List.replicate s.points.length 0)).2.length =
        s.points.length := by
      rw [hl.2, List.length_replicate]
    have hpf : (s.cell_to_point src tgt).point_fields = setF s.point_fields tgt
        (List.zipWith (fun (x : ℚ) (c : Nat) => if 0 < c then x / (c : ℚ) else x)
          (c2pLoop (s.triangles.zip sf)
            (List.replicate s.points.length 0, List.replicate s.points.length 0)).1
          (c2pLoop (s.triangles.zip sf)
            (List.replicate s.points.length 0, List.replicate s.points.length 0)).2) := by
      simp only [SurfaceInterpolator3D.cell_to_point, hm]
    refine ⟨_, by rw [hpf]; exact lookupF_setF _ _ _, ?_, ?_⟩
    · rw [List.length_zipWith, hl1, hl2, min_self]
    · intro q hq
      obtain ⟨hw, hc⟩ := c2pLoop_getD (s.triangles.zip sf)
        (List.replicate s.points.length 0, List.replicate s.points.length 0) q
        (by rw [List.length_replicate]; exact hq)
        (by rw [List.length_replicate]; exact hq)
      rw [getD_replicate _ _ _ _ hq, zero_add] at hw
      rw [getD_replicate _ _ _ _ hq, Nat.zero_add] at hc
      obtain ⟨hws, hms⟩ := weightedSum_incident q (s.triangles.zip sf) hpairsd
      rw [getD_zipWith_rat _ _ _ q (by rw [hl1]; exact hq) (by rw [hl2]; exact hq),
        hw, hc, hws, hms]
      by_cases h0 : (incidentVals (s.triangles.zip sf) q).length = 0
      · rw [if_pos h0, if_neg (by omega)]
        rw [List.length_eq_zero.mp h0]
        rfl
      · rw [if_neg h0, if_pos (by omega)]
  · intro pf hpf
    have hm : fieldMut s.point_fields src = (pf, s.point_fields) := by
      unfold fieldMut
      rw [hpf]
    have hcf : (s.point_to_cell src tgt).cell_fields = setF s.cell_fields tgt
        (s.triangles.map
          (fun v => (pf.getD v.1 0 + pf.getD v.2.1 0 + pf.getD v.2.2 0) / 3)) := by
      simp only [SurfaceInterpolator3D.point_to_cell, hm]
    rw [hcf]
    exact lookupF_setF _ _ _

/-- C6 (counterexample): with the degenerate triangle `(0,0,1)` of value 6
and the triangle `(0,1,2)` of value 0, `cell_to_point` assigns point 0 the
slot-weighted value `(6+6+0)/3 = 4`, while the unweighted arithmetic mean
of the values of the two triangles incident on point 0 is `(6+0)/2 = 3`. -/
theorem cell_to_point_multiplicity_counterexample :
    lookupF (c6Store.cell_to_point "f" "f").point_fields "f" = some [4, 3, 0] ∧
    (incidentVals (c6Tris.zip [6, 0]) 0).sum /
      ((incidentVals (c6Tris.zip [6, 0]) 0).length : ℚ) = 3 ∧
    ((4 : ℚ) ≠ 3) := by
  refine ⟨by with_unfolding_all rfl, by with_unfolding_all rfl, by norm_num⟩

/-- C6 (witness for the amended theorem): the single-triangle store with
distinct vertex indices and cell value 5 satisfies the incidence-mean
characterization. -/
theorem cell_to_point_mean_witness :
    ∃ out, lookupF (uStore.cell_to_point "f" "f").point_fields "f" = some out ∧
      out.length = uStore.points.length ∧
      ∀ q, q < uStore.points.length →
        out.getD q 0 = if (incidentVals (uStore.triangles.zip [5]) q).length = 0 then 0
          else (incidentVals (uStore.triangles.zip [5]) q).sum /
            ((incidentVals (uStore.triangles.zip [5]) q).length : ℚ) :=
  (cell_to_point_mean uStore "f" "f" [5] (by with_unfolding_all rfl) (by decide)).1

/-! ## Round trip of a constant cell field -/

theorem weightedSum_const (q : Nat) (vv : ℚ) : ∀ (pairs : List ((Nat × Nat × Nat) × ℚ)),
    (∀ vx ∈ pairs, vx.2 = vv) →
    weightedSum q pairs = (multSum q pairs : ℚ) * vv := by
  intro pairs
  induction pairs with
  | nil =>
    intro _
    simp [weightedSum, multSum]
  | cons vx rest ih =>
    obtain ⟨v, x⟩ := vx
    intro hall
    have hx : x = vv := hall (v, x) (List.mem_cons_self _ _)
    have hrest := ih (fun vy hy => hall vy (List.mem_cons_of_mem _ hy))
    simp only [weightedSum, multSum]
    rw [hrest, hx]
    push_cast
    ring

theorem mem_zip_replicate (vv : ℚ) : ∀ (tris : List (Nat × Nat × Nat)) (v : Nat × Nat × Nat),
    v ∈ tris → (v, vv) ∈ tris.zip (List.replicate tris.length vv) := by
  intro tris
  induction tris with
  | nil =>
    intro v hv
    cases hv
  | cons t ts ih =>
    intro v hv
    have hzip : (t :: ts).zip (List.replicate (t :: ts).length vv) =
        (t, vv) :: ts.zip (List.replicate ts.length vv) := rfl
    rw [hzip]
    rcases List.mem_cons.mp hv with h | h
    · subst h
      exact List.mem_cons_self _ _
    · exact List.mem_cons_of_mem _ (ih v h)

theorem zip_replicate_snd (vv : ℚ) : ∀ (tris : List (Nat × Nat × Nat))
    (vx : (Nat × Nat × Nat) × ℚ), vx ∈ tris.zip (List.replicate tris.length vv) →
    vx.2 = vv := by
  intro tris vx hx
  exact List.eq_of_mem_replicate (List.of_mem_zip hx).2

theorem multV_pos (q : Nat) (v : Nat × Nat × Nat)
    (h : v.1 = q ∨ v.2.1 = q ∨ v.2.2 = q) : 0 < multV q v := by
  simp only [multV]
  rcases h with h | h | h
  · rw [if_pos h]
    omega
  · rw [if_pos h]
    omega
  · rw [if_pos h]
    omega

theorem multSum_pos_of_mem (q : Nat) : ∀ (pairs : List ((Nat × Nat × Nat) × ℚ))
    (v : Nat × Nat × Nat) (x : ℚ), (v, x) ∈ pairs →
    (v.1 = q ∨ v.2.1 = q ∨ v.2.2 = q) → 0 < multSum q pairs := by
  intro pairs
  induction pairs with
  | nil =>
    intro v x hv _
    cases hv
  | cons vy rest ih =>
    obtain ⟨w, y⟩ := vy
    intro v x hv hvert
    simp only [multSum]
    rcases List.mem_cons.mp hv with h | h
    · have hw : w = v := congrArg Prod.fst h.symm
      subst hw
      have := multV_pos q w hvert
      omega
    · have := ih v x h hvert
      omega

/-- The value that `cell_to_point` computes at an in-range point `q` that
is a vertex of some triangle, when the source field is the constant `vv`:
the accumulated sum is `count * vv` and the division restores `vv`. -/
theorem c2p_const_value (tris : List (Nat × Nat × Nat)) (vv : ℚ) (n q : Nat)
    (hq : q < n) (v : Nat × Nat × Nat) (hv : v ∈ tris)
    (hvert : v.1 = q ∨ v.2.1 = q ∨ v.2.2 = q) :
    (List.zipWith (fun (x : ℚ) (c : Nat) => if 0 < c then x / (c : ℚ) else x)
      (c2pLoop (tris.zip (List.replicate tris.length vv))
        (List.replicate n 0, List.replicate n 0)).1
      (c2pLoop (tris.zip (List.replicate tris.length vv))
        (List.replicate n 0, List.replicate n 0)).2).getD q 0 = vv := by
  have hl := c2pLoop_length (tris.zip (List.replicate tris.length vv))
    (List.replicate n (0 : ℚ), List.replicate n (0 : Nat))
  have hl1 : (c2pLoop (tris.zip (List.replicate tris.length vv))
      (List.replicate n 0, List.replicate n 0)).1.length = n := by
    rw [hl.1]
    exact List.length_replicate _ _
  have hl2 : (c2pLoop (tris.zip (List.replicate tris.length vv))
      (List.replicate n 0, List.replicate n 0)).2.length = n := by
    rw [hl.2]
    exact List.length_replicate _ _
  obtain ⟨hw, hc⟩ := c2pLoop_getD (tris.zip (List.replicate tris.length vv))
    (List.replicate n 0, List.replicate n 0) q
    (by rw [List.length_replicate]; exact hq) (by rw [List.length_replicate]; exact hq)
  rw [getD_replicate _ _ _ _ hq, zero_add] at hw
  rw [getD_replicate _ _ _ _ hq, Nat.zero_add] at hc
  have hwc := weightedSum_const q vv (tris.zip (List.replicate tris.length vv))
    (zip_replicate_snd vv tris)
  have hpos : 0 < multSum q (tris.zip (List.replicate tris.length vv)) :=
    multSum_pos_of_mem q _ v vv (mem_zip_replicate vv tris v hv) hvert
  rw [getD_zipWith_rat _ _ _ q (by rw [hl1]; exact hq) (by rw [hl2]; exact hq), hw, hc,
    if_pos hpos, hwc]
  have hne : ((multSum q (tris.zip (List.replicate tris.length vv)) : ℚ)) ≠ 0 := by
    exact_mod_cast Nat.pos_iff_ne_zero.mp hpos
  field_simp

/-- C9: for every topology with valid vertex indices, converting a
constant cell field `vv` to a point field and back to a cell field yields
the constant `vv` on every triangle. -/
theorem convert_round_trip_constant (s : SurfaceInterpolator3D) (nm : String) (vv : ℚ)
    (hf : lookupF s.cell_fields nm = some (List.replicate s.triangles.length vv))
    (hvalid : ∀ v ∈ s.triangles, v.1 < s.points.length ∧ v.2.1 < s.points.length ∧
      v.2.2 < s.points.length) :
    ∃ s1 s2, s.convert .CellField nm .PointField nm = .ok s1 ∧
      s1.convert .PointField nm .CellField nm = .ok s2 ∧
      lookupF s2.cell_fields nm = some (List.replicate s.triangles.length vv) := by
  have hm : fieldMut s.cell_fields nm =
      (List.replicate s.triangles.length vv, s.cell_fields) := by
    unfold fieldMut
    rw [hf]
  refine ⟨s.cell_to_point nm nm, (s.cell_to_point nm nm).point_to_cell nm nm, ?_, ?_, ?_⟩
  · simp only [SurfaceInterpolator3D.convert, ite_self]
  · simp only [SurfaceInterpolator3D.convert, ite_self]
  · have hfinal : (s.cell_to_point nm nm).point_fields = setF s.point_fields nm
        (List.zipWith (fun (x : ℚ) (c : Nat) => if 0 < c then x / (c : ℚ) else x)
          (c2pLoop (s.triangles.zip (List.replicate s.triangles.length vv))
            (List.replicate s.points.length 0, List.replicate s.points.length 0)).1
          (c2pLoop (s.triangles.zip (List.replicate s.triangles.length vv))
            (List.replicate s.points.length 0, List.replicate s.points.length 0)).2) := by
      simp only [SurfaceInterpolator3D.cell_to_point, hm]
    have hlook : lookupF (s.cell_to_point nm nm).point_fields nm =
        some (List.zipWith (fun (x : ℚ) (c : Nat) => if 0 < c then x / (c : ℚ) else x)
          (c2pLoop (s.triangles.zip (List.replicate s.triangles.length vv))
            (List.replicate s.points.length 0, List.replicate s.points.length 0)).1
          (c2pLoop (s.triangles.zip (List.replicate s.triangles.length vv))
            (List.replicate s.points.length 0, List.replicate s.points.length 0)).2) := by
      rw [hfinal]
      exact lookupF_setF _ _ _
    have hm2 : fieldMut (s.cell_to_point nm nm).point_fields nm =
        (List.zipWith (fun (x : ℚ) (c : Nat) => if 0 < c then x / (c : ℚ) else x)
          (c2pLoop (s.triangles.zip (List.replicate s.triangles.length vv))
            (List.replicate s.points.length 0, List.replicate s.points.length 0)).1
          (c2pLoop (s.triangles.zip (List.replicate s.triangles.length vv))
            (List.replicate s.points.length 0, List.replicate s.points.length 0)).2,
         (s.cell_to_point nm nm).point_fields) := by
      unfold fieldMut
      rw [hlook]
    have htris : (s.cell_to_point nm nm).triangles = s.triangles := rfl
    have hcf : ((s.cell_to_point nm nm).point_to_cell nm nm).cell_fields =
        setF (s.cell_to_point nm nm).cell_fields nm
          (s.triangles.map (fun v =>
            ((List.zipWith (fun (x : ℚ) (c : Nat) => if 0 < c then x / (c : ℚ) else x)
              (c2pLoop (s.triangles.zip (List.replicate s.triangles.length vv))
                (List.replicate s.points.length 0, List.replicate s.points.length 0)).1
              (c2pLoop (s.triangles.zip (List.replicate s.triangles.length vv))
                (List.replicate s.points.length 0, List.replicate s.points.length 0)).2).getD v.1 0 +
             (List.zipWith (fun (x : ℚ) (c : Nat) => if 0 < c then x / (c : ℚ) else x)
              (c2pLoop (s.triangles.zip (List.replicate s.triangles.length vv))
                (List.replicate s.points.length 0, List.replicate s.points.length 0)).1
              (c2pLoop (s.triangles.zip (List.replicate s.triangles.length vv))
                (List.replicate s.points.length 0, List.replicate s.points.length 0)).2).getD v.2.1 0 +
             (List.zipWith (fun (x : ℚ) (c : Nat) => if 0 < c then x / (c : ℚ) else x)
              (c2pLoop (s.triangles.zip (List.replicate s.triangles.length vv))
                (List.replicate s.points.length 0, List.replicate s.points.length 0)).1
              (c2pLoop (s.triangles.zip (List.replicate s.triangles.length vv))
                (List.replicate s.points.length 0, List.replicate s.points.length 0)).2).getD v.2.2 0) / 3)) := by
      simp only [SurfaceInterpolator3D.point_to_cell, hm2, htris]
    rw [hcf, lookupF_setF]
    congr 1
    rw [List.eq_replicate_iff]
    refine ⟨by rw [List.length_map], ?_⟩
    intro b hb
    obtain ⟨v, hv, hbv⟩ := List.mem_map.mp hb
    obtain ⟨hv1, hv2, hv3⟩ := hvalid v hv
    rw [← hbv,
      c2p_const_value s.triangles vv s.points.length v.1 hv1 v hv (Or.inl rfl),
      c2p_const_value s.triangles vv s.points.length v.2.1 hv2 v hv (Or.inr (Or.inl rfl)),
      c2p_const_value s.triangles vv s.points.length v.2.2 hv3 v hv (Or.inr (Or.inr rfl))]
    ring

/-- C9 (witness): the single-triangle store with constant cell value 5
round-trips to the constant cell field 5. -/
theorem convert_round_trip_constant_witness :
    ∃ s1 s2, uStore.convert .CellField "f" .PointField "f" = .ok s1 ∧
      s1.convert .PointField "f" .CellField "f" = .ok s2 ∧
      lookupF s2.cell_fields "f" = some (List.replicate uStore.triangles.length 5) :=
  convert_round_trip_constant uStore "f" 5 (by with_unfolding_all rfl) (by decide)

end Macplas
